import Mathlib

/-!
Verification development for the flowglad MCP setup-instruction engine.

The TypeScript sources modelled here:
- `src/mcp/tools/utils/codebaseAnalysisExtractor.ts` (fact extraction),
- `src/mcp/tools/utils/templateReplacer.ts` (token-map construction and
  template substitution),
- `src/mcp/tools/utils/pricingModelUtils.ts` (pricing analysis/composition),
- `src/mcp/tools/utils/codeSnippetUtils.ts` (snippet resolution),
- `src/mcp/tools/analyzeCodebase.ts` and `src/mcp/tools/getSetupInstructions.ts`
  (the orchestrating tools).

Strings are modelled by Lean `String` (a list of characters).  JavaScript
`String.prototype.replace` with a `RegExp` argument is modelled by a small
matching engine (`PatTok`, `jsReplaceGo`).  The engine is faithful to the
JavaScript semantics for the fragment of regular-expression syntax that the
source can produce from its token keys: literal characters, the escaped
braces `\x5c\x7b` / `\x5c\x7d` that `placeholder.replace(/[{}]/g, '\x5c$&')`
introduces, and the metacharacter `.` (any character except a line
terminator).  Other metacharacters are compiled as literals; every theorem
below that quantifies over keys restricts them (via `regexSafeKey`) to the
fragment on which the model and JavaScript agree exactly.  The replacement
string's `$`-substitutions (`$$`, `$&`, backtick and quote forms) are
modelled by `expandRepl`.
-/

/-- Left brace character, written via its code point . -/
def lbrace : Char := Char.ofNat 123

/-- Right brace character, written via its code point. -/
def rbrace : Char := Char.ofNat 125

/-- Backtick character, written via its code point. -/
def btick : Char := Char.ofNat 96

/-- Single-quote character, written via its code point. -/
def squote : Char := Char.ofNat 39

/-- A compiled regular-expression token: a literal character or the
metacharacter `.` (which in JavaScript without the `s` flag matches any
character except a line terminator). -/
inductive PatTok where
  | lit (c : Char)
  | anyC
deriving DecidableEq, Repr

/-- Whether a single pattern token matches a character, following the
JavaScript semantics of a literal and of `.` (no `s` flag: `.` rejects
the four line terminators). -/
def tokMatches : PatTok → Char → Bool
  | .lit c, d => c == d
  | .anyC, d => !(d == '\n' || d == '\r' || d == '\u2028' || d == '\u2029')

/-- Whether the fixed-width pattern matches a prefix of the character list. -/
def patMatch : List PatTok → List Char → Bool
  | [], _ => true
  | _ :: _, [] => false
  | t :: ts, c :: cs => tokMatches t c && patMatch ts cs

theorem patMatch_length {pat : List PatTok} {cs : List Char}
    (h : patMatch pat cs = true) : pat.length ≤ cs.length := by
  induction pat generalizing cs with
  | nil => simp
  | cons t ts ih =>
    cases cs with
    | nil => simp [patMatch] at h
    | cons c cs' =>
      simp only [patMatch, Bool.and_eq_true] at h
      simpa [Nat.succ_le_succ_iff] using ih h.2

/-- Compiles the source text of a regular expression into pattern tokens.
Handles a backslash escape (the source only produces `\x5c\x7b` and
`\x5c\x7d` via `placeholder.replace(/[{}]/g, '\x5c$&')`) and the
metacharacter `.`; every other character is compiled as a literal.  This is
exactly the JavaScript behaviour on patterns containing no metacharacter
other than `.` and escaped braces; theorems restrict keys accordingly. -/
def compilePat : List Char → List PatTok
  | [] => []
  | [c] =>
    if c == '\\' then [.lit '\\']
    else if c == '.' then [.anyC]
    else [.lit c]
  | c :: d :: rest =>
    if c == '\\' then .lit d :: compilePat rest
    else if c == '.' then .anyC :: compilePat (d :: rest)
    else .lit c :: compilePat (d :: rest)

/-- Performs the brace escaping `placeholder.replace(/[{}]/g, '\x5c$&')`
from `applyTemplateReplacements`. -/
def escapeBraces : List Char → List Char
  | [] => []
  | c :: rest =>
    if c == lbrace || c == rbrace then '\\' :: c :: escapeBraces rest
    else c :: escapeBraces rest

/-- GetSubstitution from the JavaScript specification, for a regular
expression with no capture groups: expands `$$`, `$&`, `$`-backtick
(portion before the match) and `$`-quote (portion after the match) in the
replacement string; any other `$` sequence (including `$digit`, which with
zero capture groups has no referent) is passed through literally. -/
def expandRepl (matched before after : List Char) : List Char → List Char
  | [] => []
  | [c] => [c]
  | c :: d :: r =>
    if c == '$' then
      if d == '$' then '$' :: expandRepl matched before after r
      else if d == '&' then matched ++ expandRepl matched before after r
      else if d == btick then before ++ expandRepl matched before after r
      else if d == squote then after ++ expandRepl matched before after r
      else '$' :: expandRepl matched before after (d :: r)
    else c :: expandRepl matched before after (d :: r)


/-- Global regular-expression replacement over the characters of the
subject, following JavaScript `String.prototype.replace` with a `g` flag:
matches are found left to right over the original string, non-overlapping;
an empty match inserts the expansion and advances one character (also
matching once at the end of the string); `bef` accumulates, in reverse,
the original characters already consumed (the portion before the current
position, used by the backtick substitution).  The `fuel` argument only
makes the recursion structural (every step consumes at least one character
of `rest`, so any fuel exceeding `rest.length` is enough; the wrappers
pass `rest.length + 1`, and `jsReplaceGo_fuel_irrel` shows the result does
not depend on the choice of sufficient fuel). -/
def jsReplaceGo (pat : List PatTok) (val : List Char) :
    (fuel : Nat) → (bef rest : List Char) → List Char
  | 0, _, _ => []
  | _ + 1, bef, [] =>
    if patMatch pat [] = true then expandRepl [] bef.reverse [] val else []
  | fuel + 1, bef, c :: cs =>
    if patMatch pat (c :: cs) = true then
      if pat.isEmpty then
        expandRepl [] bef.reverse (c :: cs) val ++
          c :: jsReplaceGo pat val fuel (c :: bef) cs
      else
        expandRepl ((c :: cs).take pat.length) bef.reverse
            ((c :: cs).drop pat.length) val ++
          jsReplaceGo pat val fuel (((c :: cs).take pat.length).reverse ++ bef)
            ((c :: cs).drop pat.length)
    else c :: jsReplaceGo pat val fuel (c :: bef) cs

theorem jsReplaceGo_fuel_irrel (pat : List PatTok) (val : List Char) :
    ∀ f g bef rest, rest.length < f → rest.length < g →
      jsReplaceGo pat val f bef rest = jsReplaceGo pat val g bef rest := by
  intro f
  induction f with
  | zero => intro g bef rest hf; omega
  | succ f ihf =>
    intro g bef rest hf hg
    cases g with
    | zero => omega
    | succ g =>
      cases rest with
      | nil => rfl
      | cons c cs =>
        simp only [List.length_cons] at hf hg
        by_cases hm : patMatch pat (c :: cs) = true
        · by_cases hp : pat.isEmpty
          · simp only [jsReplaceGo, hm, if_pos, hp, if_true]
            rw [ihf g (c :: bef) cs (by omega) (by omega)]
          · simp only [jsReplaceGo, hm, if_pos, hp, if_false, Bool.false_eq_true]
            have hpl : 0 < pat.length := by
              cases pat with
              | nil => simp [List.isEmpty] at hp
              | cons t ts => simp
            have hdl : ((c :: cs).drop pat.length).length ≤ cs.length := by
              simp only [List.length_drop, List.length_cons]
              omega
            rw [ihf g _ _ (by omega) (by omega)]
        · simp only [jsReplaceGo, hm, if_false, Bool.false_eq_true]
          rw [ihf g (c :: bef) cs (by omega) (by omega)]

/-- JavaScript `subject.replace(new RegExp(patternSource, 'g'), val)` for a
pattern in the supported fragment. -/
def regexReplaceAll (s patternSource val : String) : String :=
  ⟨jsReplaceGo (compilePat patternSource.data) val.data
    (s.data.length + 1) [] s.data⟩

/-- The loop body of `applyTemplateReplacements`:
`result.replace(new RegExp(placeholder.replace(/[{}]/g, '\x5c$&'), 'g'), value)`. -/
def jsReplaceToken (s key val : String) : String :=
  ⟨jsReplaceGo (compilePat (escapeBraces key.data)) val.data
    (s.data.length + 1) [] s.data⟩

/-- Model of `applyTemplateReplacements` from `templateReplacer.ts`: folds
the token map over the template, one global replace per entry, in the order
of `Object.entries` (own-property insertion order), modelled by list order. -/
def applyTemplateReplacements (template : String)
    (replacements : List (String × String)) : String :=
  replacements.foldl (fun result p => jsReplaceToken result p.1 p.2) template

/-- Characters that are special in JavaScript regular-expression source
text apart from the braces (which `applyTemplateReplacements` escapes). -/
def regexMeta : List Char :=
  ['\\', '^', '$', '.', '|', '?', '*', '+', '(', ')', '[', ']']

/-- A token key is regex-safe when it contains no unescaped
regular-expression metacharacter, so that the regex the source builds from
it matches the key as literal text. -/
def regexSafeKey (k : String) : Bool :=
  k.data.all (fun c => !(regexMeta.contains c))

/-- A replacement value is dollar-free when it contains no `$`, so that
JavaScript inserts it verbatim. -/
def dollarFree (v : String) : Bool := !(v.data.contains '$')

/-- A token-map entry is safe when its key is nonempty and regex-safe and
its value is dollar-free. -/
def safeEntry (p : String × String) : Bool :=
  (!(p.1 == "")) && regexSafeKey p.1 && dollarFree p.2

/-- Whether `key` occurs in `hay` as a literal substring. -/
def containsSubL (key : List Char) : List Char → Bool
  | [] => key.isEmpty
  | c :: cs => key.isPrefixOf (c :: cs) || containsSubL key cs

/-- Whether `key` occurs in `s` as a literal substring (JavaScript
`s.includes(key)`); the empty string occurs in every string. -/
def containsSubstr (s key : String) : Bool := containsSubL key.data s.data

/-- Modelled from the spec (section 4.3 Template Replacement Engine): the
reference literal-substitution routine the spec describes — every
occurrence of the token key, matched as literal text (leftmost,
non-overlapping), is replaced by the mapped value inserted verbatim.  The
`fuel` argument only makes the recursion structural, as in
`jsReplaceGo`. -/
def litReplaceGo (key val : List Char) : Nat → List Char → List Char
  | 0, _ => []
  | _ + 1, [] => []
  | fuel + 1, c :: cs =>
    if (!key.isEmpty && key.isPrefixOf (c :: cs)) = true then
      val ++ litReplaceGo key val fuel ((c :: cs).drop key.length)
    else c :: litReplaceGo key val fuel cs

/-- Modelled from the spec (section 4.3): literal global replacement of a
single token key by its value. -/
def specLiteralReplaceAll (s key val : String) : String :=
  ⟨litReplaceGo key.data val.data (s.data.length + 1) s.data⟩

theorem compilePat_escapeBraces_of_safe {k : List Char}
    (h : ∀ c ∈ k, c ∉ regexMeta) :
    compilePat (escapeBraces k) = k.map PatTok.lit := by
  induction k with
  | nil => rfl
  | cons c rest ih =>
    have hc := h c (List.mem_cons_self c rest)
    have hrest : ∀ c ∈ rest, c ∉ regexMeta :=
      fun d hd => h d (List.mem_cons_of_mem c hd)
    have hns : ¬((c == '\\') = true) := by
      simp only [beq_iff_eq]
      intro hcc; subst hcc; simp [regexMeta] at hc
    have hnd : ¬((c == '.') = true) := by
      simp only [beq_iff_eq]
      intro hcc; subst hcc; simp [regexMeta] at hc
    rw [escapeBraces]
    by_cases hb : (c == lbrace || c == rbrace) = true
    · rw [if_pos hb]
      cases hrest2 : escapeBraces rest with
      | nil =>
        rw [compilePat, if_pos (by simp)]
        rw [hrest2] at ih
        have : [] = rest.map PatTok.lit := by simpa [compilePat] using ih hrest
        cases rest with
        | nil => rfl
        | cons d ds => simp at this
      | cons e es =>
        rw [compilePat, if_pos (by simp)]
        rw [← hrest2, ih hrest, List.map_cons]
    · rw [if_neg hb]
      cases hrest2 : escapeBraces rest with
      | nil =>
        rw [compilePat, if_neg hns, if_neg hnd]
        rw [hrest2] at ih
        have : [] = rest.map PatTok.lit := by simpa [compilePat] using ih hrest
        cases rest with
        | nil => rfl
        | cons d ds => simp at this
      | cons e es =>
        rw [compilePat, if_neg hns, if_neg hnd, ← hrest2, ih hrest, List.map_cons]

theorem patMatch_map_lit (key cs : List Char) :
    patMatch (key.map PatTok.lit) cs = key.isPrefixOf cs := by
  induction key generalizing cs with
  | nil => cases cs <;> rfl
  | cons a as ih =>
    cases cs with
    | nil => rfl
    | cons b bs => simp [patMatch, tokMatches, List.isPrefixOf, ih]

theorem expandRepl_of_dollarFree {val : List Char}
    (h : val.contains '$' = false) :
    ∀ matched before after, expandRepl matched before after val = val := by
  induction val with
  | nil => intro m b a; rfl
  | cons c rest ih =>
    intro m b a
    have hc : ¬((c == '$') = true) := by
      simp only [beq_iff_eq]
      intro hcc; subst hcc
      simp [List.contains_cons] at h
    have hrest : rest.contains '$' = false := by
      simp only [List.contains_cons, Bool.or_eq_false_iff] at h
      exact h.2
    cases rest with
    | nil => rfl
    | cons d r =>
      rw [expandRepl, if_neg hc, ih hrest]

theorem jsReplaceGo_eq_lit (key val : List Char) (hk : key ≠ [])
    (hv : ∀ m b a, expandRepl m b a val = val) :
    ∀ fuel bef rest,
      jsReplaceGo (key.map PatTok.lit) val fuel bef rest =
        litReplaceGo key val fuel rest := by
  have hknil : ¬(key.map PatTok.lit).isEmpty = true := by
    cases key with
    | nil => exact absurd rfl hk
    | cons a as => simp
  have hkne : key.isEmpty = false := by
    cases key with
    | nil => exact absurd rfl hk
    | cons a as => rfl
  intro fuel
  induction fuel with
  | zero => intro bef rest; rfl
  | succ fuel ih =>
    intro bef rest
    cases rest with
    | nil =>
      have hm : patMatch (key.map PatTok.lit) [] = false := by
        rw [patMatch_map_lit]
        cases key with
        | nil => exact absurd rfl hk
        | cons a as => rfl
      simp only [jsReplaceGo, hm, Bool.false_eq_true, if_false, litReplaceGo]
    | cons c cs =>
      by_cases hm : patMatch (key.map PatTok.lit) (c :: cs) = true
      · have hpre : key.isPrefixOf (c :: cs) = true := by
          rwa [patMatch_map_lit] at hm
        rw [jsReplaceGo, if_pos hm, if_neg hknil, litReplaceGo,
          if_pos (by rw [hkne, hpre]; rfl)]
        simp only [List.length_map, hv]
        rw [ih]
      · have hnp : key.isPrefixOf (c :: cs) = false := by
          rw [patMatch_map_lit] at hm
          cases hip : key.isPrefixOf (c :: cs) with
          | false => rfl
          | true => exact absurd hip hm
        rw [jsReplaceGo, if_neg hm, litReplaceGo,
          if_neg (by rw [hkne, hnp]; simp)]
        rw [ih]

theorem jsReplaceToken_eq_spec (s key val : String)
    (hsafe : safeEntry (key, val) = true) :
    jsReplaceToken s key val = specLiteralReplaceAll s key val := by
  simp only [safeEntry, Bool.and_eq_true, Bool.not_eq_true',
    beq_eq_false_iff_ne, ne_eq] at hsafe
  obtain ⟨⟨hne, hsafeK⟩, hdf⟩ := hsafe
  have hkd : key.data ≠ [] := by
    intro hd
    apply hne
    cases key with
    | mk d =>
      simp only at hd
      simp [hd]
  have hmeta : ∀ c ∈ key.data, c ∉ regexMeta := by
    intro c hc hmem
    have hfalse := List.all_eq_true.mp hsafeK c hc
    simp only [Bool.not_eq_true'] at hfalse
    have htrue : regexMeta.contains c = true := List.elem_eq_true_of_mem hmem
    rw [htrue] at hfalse
    simp at hfalse
  have hvd : val.data.contains '$' = false := by
    simpa [dollarFree, Bool.not_eq_true'] using hdf
  unfold jsReplaceToken specLiteralReplaceAll
  rw [compilePat_escapeBraces_of_safe hmeta]
  exact congrArg String.mk
    (jsReplaceGo_eq_lit key.data val.data hkd
      (expandRepl_of_dollarFree hvd) (s.data.length + 1) [] s.data)

theorem applyTemplateReplacements_eq_spec (t : String)
    (m : List (String × String)) (hsafe : ∀ p ∈ m, safeEntry p = true) :
    applyTemplateReplacements t m =
      m.foldl (fun r p => specLiteralReplaceAll r p.1 p.2) t := by
  induction m generalizing t with
  | nil => rfl
  | cons p ps ih =>
    simp only [applyTemplateReplacements, List.foldl_cons]
    rw [show jsReplaceToken t p.1 p.2 = specLiteralReplaceAll t p.1 p.2 from
      jsReplaceToken_eq_spec t p.1 p.2 (hsafe p (List.mem_cons_self p ps))]
    exact ih (specLiteralReplaceAll t p.1 p.2)
      (fun q hq => hsafe q (List.mem_cons_of_mem p hq))

theorem litReplaceGo_of_not_contains (key val : List Char) :
    ∀ fuel rest, rest.length < fuel → containsSubL key rest = false →
      litReplaceGo key val fuel rest = rest := by
  intro fuel
  induction fuel with
  | zero => intro rest hf; omega
  | succ fuel ih =>
    intro rest hf h
    cases rest with
    | nil => rfl
    | cons c cs =>
      simp only [containsSubL, Bool.or_eq_false_iff] at h
      rw [litReplaceGo, if_neg (by rw [h.1]; simp)]
      simp only [List.length_cons] at hf
      rw [ih cs (by omega) h.2]

theorem specLiteralReplaceAll_of_not_contains (t key val : String)
    (h : containsSubstr t key = false) :
    specLiteralReplaceAll t key val = t := by
  unfold specLiteralReplaceAll
  rw [litReplaceGo_of_not_contains key.data val.data (t.data.length + 1) t.data
    (by omega) (by simpa [containsSubstr] using h)]

theorem applyTemplateReplacements_of_not_contains (t : String)
    (m : List (String × String)) (hsafe : ∀ p ∈ m, safeEntry p = true)
    (hocc : ∀ p ∈ m, containsSubstr t p.1 = false) :
    applyTemplateReplacements t m = t := by
  induction m with
  | nil => rfl
  | cons p ps ih =>
    simp only [applyTemplateReplacements, List.foldl_cons]
    rw [show jsReplaceToken t p.1 p.2 = t from by
      rw [jsReplaceToken_eq_spec t p.1 p.2 (hsafe p (List.mem_cons_self p ps))]
      exact specLiteralReplaceAll_of_not_contains t p.1 p.2
        (hocc p (List.mem_cons_self p ps))]
    exact ih (fun q hq => hsafe q (List.mem_cons_of_mem p hq))
      (fun q hq => hocc q (List.mem_cons_of_mem p hq))

/-- C1 (counterexample): the claim says `applyTemplateReplacements` matches
every token key as literal text and leaves a template containing no token
keys unchanged, for every token map.  It fails: the source escapes only
braces when building its regex, so a key containing the metacharacter `.`
is matched as pattern syntax — the key `a.c` does not occur literally in
the template `abc`, yet the template is rewritten. -/
theorem C1_template_replacement_counterexample :
    containsSubstr "abc" "a.c" = false ∧
      applyTemplateReplacements "abc" [("a.c", "Z")] ≠ "abc" := by
  exact ⟨by decide, by decide⟩

/-- C1 (amended): for every token map whose keys are nonempty and contain
no regular-expression metacharacter (braces are allowed — the code escapes
them) and whose values contain no dollar sign, `applyTemplateReplacements`
coincides with the spec's literal-substitution routine applied entry by
entry — every occurrence of every key is matched as literal text and its
value inserted verbatim — and in particular keys that occur nowhere in the
template have no effect, so a template containing no token keys is
returned unchanged. -/
theorem C1_template_replacement_literal (t : String)
    (m : List (String × String)) (hsafe : ∀ p ∈ m, safeEntry p = true) :
    applyTemplateReplacements t m =
        m.foldl (fun r p => specLiteralReplaceAll r p.1 p.2) t ∧
      ((∀ p ∈ m, containsSubstr t p.1 = false) →
        applyTemplateReplacements t m = t) :=
  ⟨applyTemplateReplacements_eq_spec t m hsafe,
   fun hocc => applyTemplateReplacements_of_not_contains t m hsafe hocc⟩

/-- Witness for C1: the amended theorem applied at a concrete template and
token map. -/
theorem C1_template_replacement_literal_witness :
    applyTemplateReplacements "x\x7bK\x7dy" [("\x7bK\x7d", "V")] =
      [("\x7bK\x7d", "V")].foldl
        (fun r p => specLiteralReplaceAll r p.1 p.2) "x\x7bK\x7dy" :=
  (C1_template_replacement_literal "x\x7bK\x7dy" [("\x7bK\x7d", "V")]
    (by decide)).1

/-- C8 (counterexample): the claim says a second application of the same
token map is the identity provided no replacement value contains a token
key of the map.  It fails: a replacement can create a fresh occurrence of
a key at the seam between the surrounding template text and the inserted
value.  Here the value `B\x7d` contains no key, yet substituting it into
`\x7bA\x7bAB\x7d` produces `\x7bAB\x7d`, which a second application
rewrites again. -/
theorem C8_idempotence_counterexample :
    safeEntry ("\x7bAB\x7d", "B\x7d") = true ∧
      containsSubstr "B\x7d" "\x7bAB\x7d" = false ∧
      applyTemplateReplacements
          (applyTemplateReplacements "\x7bA\x7bAB\x7d" [("\x7bAB\x7d", "B\x7d")])
          [("\x7bAB\x7d", "B\x7d")] ≠
        applyTemplateReplacements "\x7bA\x7bAB\x7d" [("\x7bAB\x7d", "B\x7d")] := by
  exact ⟨by decide, by decide, by decide⟩

/-- C8 (amended): for safe token maps, a template in which no token key
occurs is returned unchanged; a second application is the identity
provided no token key of the map occurs in the once-substituted result
(the condition that no replacement value contains a key is not enough —
see the counterexample); and with a map whose replacement value itself
contains a token key, applying twice can differ from applying once, as the
concrete cascading example shows. -/
theorem C8_idempotence_amended :
    (∀ t m, (∀ p ∈ m, safeEntry p = true) →
        (∀ p ∈ m, containsSubstr t p.1 = false) →
        applyTemplateReplacements t m = t) ∧
      (∀ t m, (∀ p ∈ m, safeEntry p = true) →
        (∀ p ∈ m, containsSubstr (applyTemplateReplacements t m) p.1 = false) →
        applyTemplateReplacements (applyTemplateReplacements t m) m =
          applyTemplateReplacements t m) ∧
      containsSubstr "x\x7bA\x7d" "\x7bA\x7d" = true ∧
      applyTemplateReplacements
          (applyTemplateReplacements "\x7bA\x7d" [("\x7bA\x7d", "x\x7bA\x7d")])
          [("\x7bA\x7d", "x\x7bA\x7d")] ≠
        applyTemplateReplacements "\x7bA\x7d" [("\x7bA\x7d", "x\x7bA\x7d")] := by
  refine ⟨fun t m hs hocc =>
      applyTemplateReplacements_of_not_contains t m hs hocc,
    fun t m hs hocc =>
      applyTemplateReplacements_of_not_contains _ m hs hocc,
    by decide, by decide⟩

/-- Witness for C8: the amended theorem's no-occurrence part applied at a
concrete template and token map. -/
theorem C8_idempotence_amended_witness :
    applyTemplateReplacements "xyz" [("\x7bK\x7d", "V")] = "xyz" :=
  C8_idempotence_amended.1 "xyz" [("\x7bK\x7d", "V")] (by decide) (by decide)

/-- Case-insensitive prefix test, modelling matching of a literal under the
JavaScript regular-expression `i` flag (case folding; exact for the ASCII
literals the source uses). -/
def ciStartsWith : List Char → List Char → Bool
  | [], _ => true
  | _ :: _, [] => false
  | p :: ps, c :: cs => (p.toLower == c.toLower) && ciStartsWith ps cs

/-- Index of the first case-insensitive occurrence of `pat`, scanning left
to right (the start-position order a regular-expression engine uses); the
empty pattern matches at every position including the end. -/
def findCi (pat : List Char) : List Char → Option Nat
  | [] => if pat.isEmpty then some 0 else none
  | c :: cs =>
    if ciStartsWith pat (c :: cs) then some 0
    else (findCi pat cs).map (· + 1)

/-- Index of the first case-sensitive occurrence of `pat` (JavaScript
`String.prototype.indexOf`, with `none` for `-1`). -/
def findLit (pat : List Char) : List Char → Option Nat
  | [] => if pat.isEmpty then some 0 else none
  | c :: cs =>
    if pat.isPrefixOf (c :: cs) then some 0
    else (findLit pat cs).map (· + 1)

/-- JavaScript `s.indexOf(pat)` as an optional index. -/
def indexOfSubstr (s pat : String) : Option Nat := findLit pat.data s.data

/-- Completes a match of the regex tail `[^\n]*\n- ([^\n]+)` starting at
`rest`: the greedy `[^\n]*` consumes up to the first newline (it cannot
cross it, so the `\n` of the pattern can only match that first newline),
then a literal `- ` must follow, and the capture is the following maximal
run of non-newline characters, required nonempty. -/
def lineCapture (rest : List Char) : Option (List Char) :=
  let line := rest.takeWhile (fun c => !(c == '\n'))
  match rest.drop line.length with
  | '\n' :: r =>
    match r with
    | '-' :: ' ' :: r2 =>
      let cap := r2.takeWhile (fun c => !(c == '\n'))
      if cap.isEmpty then none else some cap
    | _ => none
  | _ => none

/-- First match of `/PROMPT[^\n]*\n- ([^\n]+)/i` in the text, returning the
capture: start positions (occurrences of the literal prompt, matched
case-insensitively) are tried left to right and the first whose tail
completes wins. -/
def promptScan (prompt : List Char) : List Char → Option (List Char)
  | [] => none
  | c :: cs =>
    if ciStartsWith prompt (c :: cs) then
      match lineCapture ((c :: cs).drop prompt.length) with
      | some cap => some cap
      | none => promptScan prompt cs
    else promptScan prompt cs

/-- First match of `/HDR[\s\S]*?PROMPT[^\n]*\n- ([^\n]+)/i`, returning the
capture: header occurrences are tried left to right; for each, the lazy
gap `[\s\S]*?` tries the prompt occurrences after the header in order
(which is exactly what `promptScan` does on the remaining text). -/
def sectionScan (hdr prompt : List Char) : List Char → Option (List Char)
  | [] => none
  | c :: cs =>
    if ciStartsWith hdr (c :: cs) then
      match promptScan prompt ((c :: cs).drop hdr.length) with
      | some cap => some cap
      | none => sectionScan hdr prompt cs
    else sectionScan hdr prompt cs

/-- First match of `/A[\s\S]*?B/i`, returning the whole matched slice of
the subject: the match starts at the first occurrence of `A` and the lazy
gap ends at the earliest following occurrence of `B` (if no `B` follows
the first `A` occurrence, none follows a later one either, so the regex
fails). -/
def spanMatch (a b doc : List Char) : Option (List Char) :=
  match findCi a doc with
  | none => none
  | some i =>
    match findCi b (doc.drop (i + a.length)) with
    | none => none
    | some j => some ((doc.drop i).take (a.length + j + b.length))

/-- Removes the first case-insensitive occurrence of `pat` (JavaScript
`s.replace(/pat/i, '')` for a literal pattern). -/
def removeFirstCi (pat s : List Char) : List Char :=
  match findCi pat s with
  | none => s
  | some i => s.take i ++ s.drop (i + pat.length)

/-- Removes the first match of `/A[\s\S]*?B/i` (JavaScript
`s.replace(/A[\s\S]*?B/i, '')`). -/
def removeFirstSpan (a b s : List Char) : List Char :=
  match findCi a s with
  | none => s
  | some i =>
    match findCi b (s.drop (i + a.length)) with
    | none => s
    | some j => s.take i ++ s.drop (i + a.length + j + b.length)

/-- Characters trimmed by JavaScript `String.prototype.trim` (WhiteSpace
and LineTerminator code points). -/
def jsWhitespaceChar (c : Char) : Bool :=
  c == ' ' || c == '\t' || c == '\n' || c == '\r' || c == '\x0b' ||
    c == '\x0c' || c == '\u00a0' || c == '\ufeff' || c == '\u1680' ||
    (0x2000 ≤ c.toNat && c.toNat ≤ 0x200a) || c == '\u2028' ||
    c == '\u2029' || c == '\u202f' || c == '\u205f' || c == '\u3000'

/-- JavaScript `s.trim()`. -/
def jsTrim (s : String) : String :=
  ⟨((s.data.dropWhile jsWhitespaceChar).reverse.dropWhile
      jsWhitespaceChar).reverse⟩

/-- String wrapper for `promptScan`. -/
def promptLineMatch (prompt doc : String) : Option String :=
  (promptScan prompt.data doc.data).map String.mk

/-- String wrapper for `sectionScan`. -/
def sectionPromptMatch (hdr prompt doc : String) : Option String :=
  (sectionScan hdr.data prompt.data doc.data).map String.mk

/-- String wrapper for `spanMatch`. -/
def spanMatchStr (a b doc : String) : Option String :=
  (spanMatch a.data b.data doc.data).map String.mk

/-- String wrapper for `removeFirstCi`. -/
def removeFirstCiStr (pat s : String) : String :=
  ⟨removeFirstCi pat.data s.data⟩

/-- String wrapper for `removeFirstSpan`. -/
def removeFirstSpanStr (a b s : String) : String :=
  ⟨removeFirstSpan a.data b.data s.data⟩

/-- Case-folded copy of a string (JavaScript `toLowerCase`, exact on the
ASCII range the source's keyword tests use); list-based so that the kernel
can evaluate it. -/
def strToLower (s : String) : String := ⟨s.data.map Char.toLower⟩

/-- Customer model tag from `ExtractedCodebaseInfo` (TypeScript union
`'B2C' | 'B2B'`). -/
inductive CustomerModel where
  | B2C
  | B2B
deriving DecidableEq, Repr

/-- Project structure tag (TypeScript union `'nextjs' | 'react'`). -/
inductive ProjectStructure where
  | nextjs
  | react
deriving DecidableEq, Repr

/-- The `filePaths` sub-record of `ExtractedCodebaseInfo` from
`codebaseAnalysisExtractor.ts`. -/
structure FilePaths where
  apiRoutePath : String
  libPath : String
  componentsPath : String
  serverFile : String
  routeHandler : String
  layoutFile : String
  billingPage : String
  packageFile : String
  envFile : String
  envVarAccess : String
  mockBillingPath : String
  pricingComponentPath : String
  navbarComponentPath : String
  dashboardComponentPath : String
deriving DecidableEq, Repr

/-- The `defaultPaths` parameter of `extractCodebaseInfo`
(`Partial<ExtractedCodebaseInfo['filePaths']>`): every role optional. -/
structure FilePathOverrides where
  apiRoutePath : Option String := none
  libPath : Option String := none
  componentsPath : Option String := none
  serverFile : Option String := none
  routeHandler : Option String := none
  layoutFile : Option String := none
  billingPage : Option String := none
  packageFile : Option String := none
  envFile : Option String := none
  envVarAccess : Option String := none
  mockBillingPath : Option String := none
  pricingComponentPath : Option String := none
  navbarComponentPath : Option String := none
  dashboardComponentPath : Option String := none
deriving DecidableEq, Repr

/-- `ExtractedCodebaseInfo` from `codebaseAnalysisExtractor.ts`. -/
structure ExtractedCodebaseInfo where
  framework : String
  language : String
  authLibrary : String
  customerModel : CustomerModel
  customerIdSource : String
  projectStructure : Option ProjectStructure
  stackDetails : Option String
  additionalDetails : Option String
  filePaths : FilePaths
deriving DecidableEq, Repr

/-- The built-in default file paths with the explicit overrides spread over
them (`{ ...hardcoded, ...defaultPaths }`). -/
def defaultFilePaths (ov : FilePathOverrides) : FilePaths where
  apiRoutePath := ov.apiRoutePath.getD "src/app/api"
  libPath := ov.libPath.getD "src/lib"
  componentsPath := ov.componentsPath.getD "src/components"
  serverFile := ov.serverFile.getD "src/lib/flowglad.ts"
  routeHandler := ov.routeHandler.getD "src/app/api/flowglad/[...path]/route.ts"
  layoutFile := ov.layoutFile.getD "src/app/layout.tsx"
  billingPage := ov.billingPage.getD "src/app/billing/page.tsx"
  packageFile := ov.packageFile.getD "package.json"
  envFile := ov.envFile.getD ".env.local"
  envVarAccess := ov.envVarAccess.getD "process.env.VAR_NAME"
  mockBillingPath := ov.mockBillingPath.getD "src/lib/billing.ts"
  pricingComponentPath := ov.pricingComponentPath.getD "src/components/pricing.tsx"
  navbarComponentPath := ov.navbarComponentPath.getD "src/components/navbar.tsx"
  dashboardComponentPath := ov.dashboardComponentPath.getD "src/app/dashboard/page.tsx"

/-- The `defaults` record built at the top of `extractCodebaseInfo`. -/
def extractionDefaults (ov : FilePathOverrides) : ExtractedCodebaseInfo where
  framework := "Next.js"
  language := "TypeScript"
  authLibrary := "unknown"
  customerModel := .B2C
  customerIdSource := "user.id"
  projectStructure := none
  stackDetails := none
  additionalDetails := none
  filePaths := defaultFilePaths ov

/-- Framework extraction step (`frameworkMatch`): keyword tests on the
lowercased capture; no keyword leaves the defaults untouched. -/
def extractFramework (doc : String) (i : ExtractedCodebaseInfo) :
    ExtractedCodebaseInfo :=
  match sectionPromptMatch "## 1. Framework & Language Detection"
      "What framework does the application use?" doc with
  | none => i
  | some t =>
    let ft := strToLower t
    if containsSubstr ft "next.js" || containsSubstr ft "nextjs" then
      { i with projectStructure := some .nextjs, framework := "Next.js" }
    else if containsSubstr ft "react" then
      { i with projectStructure := some .react, framework := "React" }
    else i

/-- Language extraction step (`languageMatch`). -/
def extractLanguage (doc : String) (i : ExtractedCodebaseInfo) :
    ExtractedCodebaseInfo :=
  match promptLineMatch "What language is the server written in?" doc with
  | none => i
  | some t => { i with language := jsTrim t }

/-- Auth-library extraction step (`authMatch`): keyword tests on the
lowercased capture; with no keyword the trimmed capture itself is
stored. -/
def extractAuth (doc : String) (i : ExtractedCodebaseInfo) :
    ExtractedCodebaseInfo :=
  match sectionPromptMatch "## 3. Authentication System"
      "What authentication library/system is used?" doc with
  | none => i
  | some t =>
    let la := strToLower t
    if containsSubstr la "clerk" then { i with authLibrary := "Clerk" }
    else if containsSubstr la "supabase" then
      { i with authLibrary := "Supabase" }
    else if containsSubstr la "nextauth" || containsSubstr la "next-auth" then
      { i with authLibrary := "NextAuth" }
    else { i with authLibrary := jsTrim t }

/-- Customer-model extraction step: `indexOf` positions of the two marker
strings; B2B wins when its marker exists and the B2C marker is absent or
strictly later. -/
def extractCustomerModel (doc : String) (i : ExtractedCodebaseInfo) :
    ExtractedCodebaseInfo :=
  match indexOfSubstr doc "**B2B**: Businesses",
      indexOfSubstr doc "**B2C**: Individual users" with
  | some _, none => { i with customerModel := .B2B }
  | some bi, some ci =>
    if bi < ci then { i with customerModel := .B2B } else i
  | none, _ => i

/-- Customer-id extraction step (`customerIdMatch`). -/
def extractCustomerId (doc : String) (i : ExtractedCodebaseInfo) :
    ExtractedCodebaseInfo :=
  match sectionPromptMatch "Customer ID Source"
      "For B2C: What field identifies a user?" doc with
  | none => i
  | some t => { i with customerIdSource := jsTrim t }

/-- Stack-details extraction step (`stackMatch`): the matched section 2
slice with the leading header and the trailing `## 3.` removed, then
trimmed. -/
def extractStack (doc : String) (i : ExtractedCodebaseInfo) :
    ExtractedCodebaseInfo :=
  match spanMatchStr "## 2. File Structure & Paths" "## 3." doc with
  | none => i
  | some m =>
    { i with stackDetails := some (jsTrim (removeFirstCiStr "## 3."
        (removeFirstCiStr "## 2. File Structure & Paths" m))) }

/-- Additional-details extraction step (`additionalMatch`): the matched
section 4 slice with the first match of the same span pattern removed,
then trimmed (the removal erases the whole slice, so the stored value is
always the empty string when the match succeeds). -/
def extractAdditional (doc : String) (i : ExtractedCodebaseInfo) :
    ExtractedCodebaseInfo :=
  match spanMatchStr "## 4. Customer Model" "## 5." doc with
  | none => i
  | some m =>
    { i with additionalDetails := some (jsTrim
        (removeFirstSpanStr "## 4. Customer Model" "## 5." m)) }

/-- API-route path extraction step (`apiRouteMatch`). -/
def extractApiRoute (doc : String) (i : ExtractedCodebaseInfo) :
    ExtractedCodebaseInfo :=
  match promptLineMatch "Where should API routes be mounted?" doc with
  | none => i
  | some t =>
    { i with filePaths := { i.filePaths with apiRoutePath := jsTrim t } }

/-- Lib path extraction step (`libMatch`): also recomputes the server file
path from the new lib path and the already-extracted language. -/
def extractLib (doc : String) (i : ExtractedCodebaseInfo) :
    ExtractedCodebaseInfo :=
  match promptLineMatch
      "Where are utility functions and shared code located?" doc with
  | none => i
  | some t =>
    let lp := jsTrim t
    { i with filePaths := { i.filePaths with
        libPath := lp
        serverFile := lp ++ "/flowglad." ++
          (if containsSubstr i.language "TypeScript" then "ts" else "js") } }

/-- Components path extraction step (`componentsMatch`). -/
def extractComponents (doc : String) (i : ExtractedCodebaseInfo) :
    ExtractedCodebaseInfo :=
  match promptLineMatch "Where are UI components located?" doc with
  | none => i
  | some t =>
    { i with filePaths := { i.filePaths with componentsPath := jsTrim t } }

/-- Pricing component path extraction step (`pricingMatch`). -/
def extractPricingComp (doc : String) (i : ExtractedCodebaseInfo) :
    ExtractedCodebaseInfo :=
  match promptLineMatch "Where is the pricing page/component?" doc with
  | none => i
  | some t =>
    { i with filePaths :=
        { i.filePaths with pricingComponentPath := jsTrim t } }

/-- Navbar component path extraction step (`navbarMatch`). -/
def extractNavbar (doc : String) (i : ExtractedCodebaseInfo) :
    ExtractedCodebaseInfo :=
  match promptLineMatch
      "Where is the navbar/account menu component?" doc with
  | none => i
  | some t =>
    { i with filePaths :=
        { i.filePaths with navbarComponentPath := jsTrim t } }

/-- Dashboard component path extraction step (`dashboardMatch`). -/
def extractDashboard (doc : String) (i : ExtractedCodebaseInfo) :
    ExtractedCodebaseInfo :=
  match promptLineMatch
      "Where is the main dashboard/home page component?" doc with
  | none => i
  | some t =>
    { i with filePaths :=
        { i.filePaths with dashboardComponentPath := jsTrim t } }

/-- Env-file extraction step (`envFileMatch`). -/
def extractEnvFile (doc : String) (i : ExtractedCodebaseInfo) :
    ExtractedCodebaseInfo :=
  match promptLineMatch "What is the name of the environment file?" doc with
  | none => i
  | some t =>
    { i with filePaths := { i.filePaths with envFile := jsTrim t } }

/-- Env-var access extraction step (`envVarMatch`). -/
def extractEnvVar (doc : String) (i : ExtractedCodebaseInfo) :
    ExtractedCodebaseInfo :=
  match promptLineMatch "How are environment variables accessed?" doc with
  | none => i
  | some t =>
    { i with filePaths := { i.filePaths with envVarAccess := jsTrim t } }

/-- Package-file extraction step (`packageMatch`). -/
def extractPackageFile (doc : String) (i : ExtractedCodebaseInfo) :
    ExtractedCodebaseInfo :=
  match promptLineMatch
      "What is the name and location of the dependency file?" doc with
  | none => i
  | some t =>
    { i with filePaths := { i.filePaths with packageFile := jsTrim t } }

/-- Model of `extractCodebaseInfo` from `codebaseAnalysisExtractor.ts`:
builds the defaults (with explicit overrides spread over the file paths),
returns them for an absent or empty (JavaScript-falsy) document, and
otherwise applies the extraction steps in the source's statement order. -/
def extractCodebaseInfo (codebaseAnalysis : Option String)
    (defaultPaths : FilePathOverrides) : ExtractedCodebaseInfo :=
  let defaults := extractionDefaults defaultPaths
  match codebaseAnalysis with
  | none => defaults
  | some doc =>
    if doc = "" then defaults
    else
      extractPackageFile doc (extractEnvVar doc (extractEnvFile doc
        (extractDashboard doc (extractNavbar doc (extractPricingComp doc
          (extractComponents doc (extractLib doc (extractApiRoute doc
            (extractAdditional doc (extractStack doc (extractCustomerId doc
              (extractCustomerModel doc (extractAuth doc (extractLanguage doc
                (extractFramework doc defaults)))))))))))))))

/-!
Field-preservation lemmas: each extraction step updates only its own
fields, so the `customerModel` and `authLibrary` fields are preserved by
every step other than the one that sets them.
-/

theorem cm_extractFramework (doc : String) (i : ExtractedCodebaseInfo) :
    (extractFramework doc i).customerModel = i.customerModel := by
  unfold extractFramework
  repeat' split
  all_goals try dsimp only
  all_goals try split_ifs
  all_goals rfl

theorem al_extractFramework (doc : String) (i : ExtractedCodebaseInfo) :
    (extractFramework doc i).authLibrary = i.authLibrary := by
  unfold extractFramework
  repeat' split
  all_goals try dsimp only
  all_goals try split_ifs
  all_goals rfl

theorem cm_extractLanguage (doc : String) (i : ExtractedCodebaseInfo) :
    (extractLanguage doc i).customerModel = i.customerModel := by
  unfold extractLanguage
  repeat' split
  all_goals try dsimp only
  all_goals try split_ifs
  all_goals rfl

theorem al_extractLanguage (doc : String) (i : ExtractedCodebaseInfo) :
    (extractLanguage doc i).authLibrary = i.authLibrary := by
  unfold extractLanguage
  repeat' split
  all_goals try dsimp only
  all_goals try split_ifs
  all_goals rfl

theorem cm_extractAuth (doc : String) (i : ExtractedCodebaseInfo) :
    (extractAuth doc i).customerModel = i.customerModel := by
  unfold extractAuth
  repeat' split
  all_goals try dsimp only
  all_goals try split_ifs
  all_goals rfl

theorem al_extractCustomerModel (doc : String) (i : ExtractedCodebaseInfo) :
    (extractCustomerModel doc i).authLibrary = i.authLibrary := by
  unfold extractCustomerModel
  repeat' split
  all_goals try dsimp only
  all_goals try split_ifs
  all_goals rfl

theorem cm_extractCustomerId (doc : String) (i : ExtractedCodebaseInfo) :
    (extractCustomerId doc i).customerModel = i.customerModel := by
  unfold extractCustomerId
  repeat' split
  all_goals try dsimp only
  all_goals try split_ifs
  all_goals rfl

theorem al_extractCustomerId (doc : String) (i : ExtractedCodebaseInfo) :
    (extractCustomerId doc i).authLibrary = i.authLibrary := by
  unfold extractCustomerId
  repeat' split
  all_goals try dsimp only
  all_goals try split_ifs
  all_goals rfl

theorem cm_extractStack (doc : String) (i : ExtractedCodebaseInfo) :
    (extractStack doc i).customerModel = i.customerModel := by
  unfold extractStack
  repeat' split
  all_goals try dsimp only
  all_goals try split_ifs
  all_goals rfl

theorem al_extractStack (doc : String) (i : ExtractedCodebaseInfo) :
    (extractStack doc i).authLibrary = i.authLibrary := by
  unfold extractStack
  repeat' split
  all_goals try dsimp only
  all_goals try split_ifs
  all_goals rfl

theorem cm_extractAdditional (doc : String) (i : ExtractedCodebaseInfo) :
    (extractAdditional doc i).customerModel = i.customerModel := by
  unfold extractAdditional
  repeat' split
  all_goals try dsimp only
  all_goals try split_ifs
  all_goals rfl

theorem al_extractAdditional (doc : String) (i : ExtractedCodebaseInfo) :
    (extractAdditional doc i).authLibrary = i.authLibrary := by
  unfold extractAdditional
  repeat' split
  all_goals try dsimp only
  all_goals try split_ifs
  all_goals rfl

theorem cm_extractApiRoute (doc : String) (i : ExtractedCodebaseInfo) :
    (extractApiRoute doc i).customerModel = i.customerModel := by
  unfold extractApiRoute
  repeat' split
  all_goals try dsimp only
  all_goals try split_ifs
  all_goals rfl

theorem al_extractApiRoute (doc : String) (i : ExtractedCodebaseInfo) :
    (extractApiRoute doc i).authLibrary = i.authLibrary := by
  unfold extractApiRoute
  repeat' split
  all_goals try dsimp only
  all_goals try split_ifs
  all_goals rfl

theorem cm_extractLib (doc : String) (i : ExtractedCodebaseInfo) :
    (extractLib doc i).customerModel = i.customerModel := by
  unfold extractLib
  repeat' split
  all_goals try dsimp only
  all_goals try split_ifs
  all_goals rfl

theorem al_extractLib (doc : String) (i : ExtractedCodebaseInfo) :
    (extractLib doc i).authLibrary = i.authLibrary := by
  unfold extractLib
  repeat' split
  all_goals try dsimp only
  all_goals try split_ifs
  all_goals rfl

theorem cm_extractComponents (doc : String) (i : ExtractedCodebaseInfo) :
    (extractComponents doc i).customerModel = i.customerModel := by
  unfold extractComponents
  repeat' split
  all_goals try dsimp only
  all_goals try split_ifs
  all_goals rfl

theorem al_extractComponents (doc : String) (i : ExtractedCodebaseInfo) :
    (extractComponents doc i).authLibrary = i.authLibrary := by
  unfold extractComponents
  repeat' split
  all_goals try dsimp only
  all_goals try split_ifs
  all_goals rfl

theorem cm_extractPricingComp (doc : String) (i : ExtractedCodebaseInfo) :
    (extractPricingComp doc i).customerModel = i.customerModel := by
  unfold extractPricingComp
  repeat' split
  all_goals try dsimp only
  all_goals try split_ifs
  all_goals rfl

theorem al_extractPricingComp (doc : String) (i : ExtractedCodebaseInfo) :
    (extractPricingComp doc i).authLibrary = i.authLibrary := by
  unfold extractPricingComp
  repeat' split
  all_goals try dsimp only
  all_goals try split_ifs
  all_goals rfl

theorem cm_extractNavbar (doc : String) (i : ExtractedCodebaseInfo) :
    (extractNavbar doc i).customerModel = i.customerModel := by
  unfold extractNavbar
  repeat' split
  all_goals try dsimp only
  all_goals try split_ifs
  all_goals rfl

theorem al_extractNavbar (doc : String) (i : ExtractedCodebaseInfo) :
    (extractNavbar doc i).authLibrary = i.authLibrary := by
  unfold extractNavbar
  repeat' split
  all_goals try dsimp only
  all_goals try split_ifs
  all_goals rfl

theorem cm_extractDashboard (doc : String) (i : ExtractedCodebaseInfo) :
    (extractDashboard doc i).customerModel = i.customerModel := by
  unfold extractDashboard
  repeat' split
  all_goals try dsimp only
  all_goals try split_ifs
  all_goals rfl

theorem al_extractDashboard (doc : String) (i : ExtractedCodebaseInfo) :
    (extractDashboard doc i).authLibrary = i.authLibrary := by
  unfold extractDashboard
  repeat' split
  all_goals try dsimp only
  all_goals try split_ifs
  all_goals rfl

theorem cm_extractEnvFile (doc : String) (i : ExtractedCodebaseInfo) :
    (extractEnvFile doc i).customerModel = i.customerModel := by
  unfold extractEnvFile
  repeat' split
  all_goals try dsimp only
  all_goals try split_ifs
  all_goals rfl

theorem al_extractEnvFile (doc : String) (i : ExtractedCodebaseInfo) :
    (extractEnvFile doc i).authLibrary = i.authLibrary := by
  unfold extractEnvFile
  repeat' split
  all_goals try dsimp only
  all_goals try split_ifs
  all_goals rfl

theorem cm_extractEnvVar (doc : String) (i : ExtractedCodebaseInfo) :
    (extractEnvVar doc i).customerModel = i.customerModel := by
  unfold extractEnvVar
  repeat' split
  all_goals try dsimp only
  all_goals try split_ifs
  all_goals rfl

theorem al_extractEnvVar (doc : String) (i : ExtractedCodebaseInfo) :
    (extractEnvVar doc i).authLibrary = i.authLibrary := by
  unfold extractEnvVar
  repeat' split
  all_goals try dsimp only
  all_goals try split_ifs
  all_goals rfl

theorem cm_extractPackageFile (doc : String) (i : ExtractedCodebaseInfo) :
    (extractPackageFile doc i).customerModel = i.customerModel := by
  unfold extractPackageFile
  repeat' split
  all_goals try dsimp only
  all_goals try split_ifs
  all_goals rfl

theorem al_extractPackageFile (doc : String) (i : ExtractedCodebaseInfo) :
    (extractPackageFile doc i).authLibrary = i.authLibrary := by
  unfold extractPackageFile
  repeat' split
  all_goals try dsimp only
  all_goals try split_ifs
  all_goals rfl

theorem extractCodebaseInfo_customerModel (doc : String)
    (ov : FilePathOverrides) (hne : ¬(doc = "")) :
    (extractCodebaseInfo (some doc) ov).customerModel =
      match indexOfSubstr doc "**B2B**: Businesses",
          indexOfSubstr doc "**B2C**: Individual users" with
      | some _, none => CustomerModel.B2B
      | some bi, some ci =>
        if bi < ci then CustomerModel.B2B else CustomerModel.B2C
      | none, _ => CustomerModel.B2C := by
  have hbase : (extractAuth doc (extractLanguage doc
      (extractFramework doc (extractionDefaults ov)))).customerModel =
        CustomerModel.B2C := by
    rw [cm_extractAuth, cm_extractLanguage, cm_extractFramework]; rfl
  unfold extractCodebaseInfo
  dsimp only
  rw [if_neg hne]
  rw [cm_extractPackageFile, cm_extractEnvVar, cm_extractEnvFile,
    cm_extractDashboard, cm_extractNavbar, cm_extractPricingComp,
    cm_extractComponents, cm_extractLib, cm_extractApiRoute,
    cm_extractAdditional, cm_extractStack, cm_extractCustomerId]
  unfold extractCustomerModel
  split
  · rfl
  · split_ifs
    · rfl
    · exact hbase
  · exact hbase

theorem extractCodebaseInfo_authLibrary (doc : String)
    (ov : FilePathOverrides) (hne : ¬(doc = "")) :
    (extractCodebaseInfo (some doc) ov).authLibrary =
      match sectionPromptMatch "## 3. Authentication System"
          "What authentication library/system is used?" doc with
      | none => "unknown"
      | some t =>
        if containsSubstr (strToLower t) "clerk" then "Clerk"
        else if containsSubstr (strToLower t) "supabase" then "Supabase"
        else if containsSubstr (strToLower t) "nextauth" ||
            containsSubstr (strToLower t) "next-auth" then "NextAuth"
        else jsTrim t := by
  have hbase : (extractLanguage doc
      (extractFramework doc (extractionDefaults ov))).authLibrary =
        "unknown" := by
    rw [al_extractLanguage, al_extractFramework]; rfl
  unfold extractCodebaseInfo
  dsimp only
  rw [if_neg hne]
  rw [al_extractPackageFile, al_extractEnvVar, al_extractEnvFile,
    al_extractDashboard, al_extractNavbar, al_extractPricingComp,
    al_extractComponents, al_extractLib, al_extractApiRoute,
    al_extractAdditional, al_extractStack, al_extractCustomerId,
    al_extractCustomerModel]
  unfold extractAuth
  split
  · exact hbase
  · dsimp only
    split_ifs <;> rfl

/-- C2: with an absent analysis document, `extractCodebaseInfo` returns
exactly the built-in default record with the explicit `filePaths`
overrides merged in.  Since the embedding is a pure total function, a
second call on the same absent input is definitionally the same record
(the claim's idempotence), and the returned record has every field
populated — in the model, every field of `ExtractedCodebaseInfo`,
including all fourteen `filePaths` roles, is total by type. -/
theorem C2_extract_absent_defaults (ov : FilePathOverrides) :
    extractCodebaseInfo none ov =
      { framework := "Next.js", language := "TypeScript",
        authLibrary := "unknown", customerModel := CustomerModel.B2C,
        customerIdSource := "user.id", projectStructure := none,
        stackDetails := none, additionalDetails := none,
        filePaths :=
          { apiRoutePath := ov.apiRoutePath.getD "src/app/api",
            libPath := ov.libPath.getD "src/lib",
            componentsPath := ov.componentsPath.getD "src/components",
            serverFile := ov.serverFile.getD "src/lib/flowglad.ts",
            routeHandler :=
              ov.routeHandler.getD "src/app/api/flowglad/[...path]/route.ts",
            layoutFile := ov.layoutFile.getD "src/app/layout.tsx",
            billingPage := ov.billingPage.getD "src/app/billing/page.tsx",
            packageFile := ov.packageFile.getD "package.json",
            envFile := ov.envFile.getD ".env.local",
            envVarAccess := ov.envVarAccess.getD "process.env.VAR_NAME",
            mockBillingPath := ov.mockBillingPath.getD "src/lib/billing.ts",
            pricingComponentPath :=
              ov.pricingComponentPath.getD "src/components/pricing.tsx",
            navbarComponentPath :=
              ov.navbarComponentPath.getD "src/components/navbar.tsx",
            dashboardComponentPath :=
              ov.dashboardComponentPath.getD "src/app/dashboard/page.tsx" } } :=
  rfl

/-- C3: relative-position rule for the customer model.  If the
business/organization marker occurs (strictly before the individual marker
or with the individual marker absent), the extracted customer model is
B2B; if the business marker is absent (only the individual marker, or
neither), it is B2C. -/
theorem C3_customer_model_positions (doc : String) (ov : FilePathOverrides) :
    (∀ bi, indexOfSubstr doc "**B2B**: Businesses" = some bi →
      (indexOfSubstr doc "**B2C**: Individual users" = none ∨
        ∃ ci, indexOfSubstr doc "**B2C**: Individual users" = some ci ∧
          bi < ci) →
      (extractCodebaseInfo (some doc) ov).customerModel =
        CustomerModel.B2B) ∧
    (indexOfSubstr doc "**B2B**: Businesses" = none →
      (extractCodebaseInfo (some doc) ov).customerModel =
        CustomerModel.B2C) := by
  by_cases hne : doc = ""
  · subst hne
    constructor
    · intro bi hbi hc
      rw [show indexOfSubstr "" "**B2B**: Businesses" = none from rfl] at hbi
      exact Option.noConfusion hbi
    · intro _
      rfl
  · have hch := extractCodebaseInfo_customerModel doc ov hne
    constructor
    · intro bi hbi hc
      rw [hch, hbi]
      rcases hc with hc | ⟨ci, hci, hlt⟩
      · rw [hc]
      · rw [hci]
        simp [hlt]
    · intro hb
      rw [hch, hb]

/-- Witness for C3: a document with the business marker strictly before
the individual marker extracts as B2B. -/
theorem C3_customer_model_positions_witness :
    (extractCodebaseInfo
      (some "**B2B**: Businesses before **B2C**: Individual users")
      {}).customerModel = CustomerModel.B2B :=
  (C3_customer_model_positions
    "**B2B**: Businesses before **B2C**: Individual users" {}).1
    0 (by decide) (Or.inr ⟨27, by decide, by decide⟩)

/-- C9 (counterexample): the claim says that when the auth pattern matches
but the matched text contains no keyword, `authLibrary` is set to one
single fixed fallback value regardless of the matched text.  It fails: the
source stores the trimmed matched text itself, so two keyword-free
documents produce two different values. -/
theorem C9_auth_fallback_counterexample :
    sectionPromptMatch "## 3. Authentication System"
        "What authentication library/system is used?"
        "## 3. Authentication System\nWhat authentication library/system is used?\n- Auth0"
        = some "Auth0" ∧
      (["clerk", "supabase", "nextauth", "next-auth"].all
        (fun k => !(containsSubstr "auth0" k))) = true ∧
      (["clerk", "supabase", "nextauth", "next-auth"].all
        (fun k => !(containsSubstr "passport" k))) = true ∧
      (extractCodebaseInfo
        (some "## 3. Authentication System\nWhat authentication library/system is used?\n- Auth0")
        {}).authLibrary = "Auth0" ∧
      (extractCodebaseInfo
        (some "## 3. Authentication System\nWhat authentication library/system is used?\n- Passport")
        {}).authLibrary = "Passport" ∧
      ("Auth0" : String) ≠ "Passport" :=
  ⟨by decide, by decide, by decide, by decide, by decide, by decide⟩

/-- C9 (amended): when the auth pattern matches and the matched text
contains none of the keywords (clerk, supabase, nextauth, next-auth,
case-insensitively), `authLibrary` is set to the trimmed matched text
itself — not to a fixed canonical fallback. -/
theorem C9_auth_fallback_amended (doc : String) (ov : FilePathOverrides)
    (t : String)
    (hm : sectionPromptMatch "## 3. Authentication System"
        "What authentication library/system is used?" doc = some t)
    (h1 : containsSubstr (strToLower t) "clerk" = false)
    (h2 : containsSubstr (strToLower t) "supabase" = false)
    (h3 : containsSubstr (strToLower t) "nextauth" = false)
    (h4 : containsSubstr (strToLower t) "next-auth" = false) :
    (extractCodebaseInfo (some doc) ov).authLibrary = jsTrim t := by
  have hne : ¬(doc = "") := by
    intro h
    subst h
    rw [show sectionPromptMatch "## 3. Authentication System"
        "What authentication library/system is used?" "" = none from rfl] at hm
    exact Option.noConfusion hm
  rw [extractCodebaseInfo_authLibrary doc ov hne, hm]
  dsimp only
  rw [if_neg (by simp [h1]), if_neg (by simp [h2]),
    if_neg (by simp [h3, h4])]

/-- Witness for C9: the amended theorem applied to a concrete keyword-free
document. -/
theorem C9_auth_fallback_amended_witness :
    (extractCodebaseInfo
      (some "## 3. Authentication System\nWhat authentication library/system is used?\n- Auth0")
      {}).authLibrary = jsTrim "Auth0" :=
  C9_auth_fallback_amended
    "## 3. Authentication System\nWhat authentication library/system is used?\n- Auth0"
    {} "Auth0" (by decide) (by decide) (by decide) (by decide) (by decide)

/-- Modelled from the spec (section 3 PricingConfiguration): feature type
tags.  `FeatureType` is imported by the source from outside the given
files; the spec describes a closed set including toggle and
usage-credit-grant; only the toggle tag is discriminated by the code
modelled here. -/
inductive FeatureType where
  | toggle
  | usageCreditGrant
  | other
deriving DecidableEq, Repr

/-- A price as consumed by `analyzePricingModel`: `trialPeriodDays` can be
absent (`none`), null (`some none`) or a number (`some (some n)`), mirroring
the TypeScript `undefined`/`null`/number distinction the source tests. -/
structure PricingPrice where
  trialPeriodDays : Option (Option Int) := none
deriving DecidableEq, Repr

/-- The display fields of a product entry read by
`buildTemplateReplacements` (`p.product?.name || p.product?.slug`). -/
structure ProductInfo where
  name : Option String := none
  slug : Option String := none
deriving DecidableEq, Repr

/-- A product entry of the pricing configuration: `prices` is read by
`analyzePricingModel`; the optional `product` display record by
`buildTemplateReplacements`. -/
structure PricingProduct where
  product : Option ProductInfo := none
  prices : List PricingPrice := []
deriving DecidableEq, Repr

/-- A feature of the pricing configuration. -/
structure PricingFeature where
  type : FeatureType
  slug : String
deriving DecidableEq, Repr

/-- A usage meter of the pricing configuration. -/
structure UsageMeter where
  slug : String
  name : String
deriving DecidableEq, Repr

/-- `SetupPricingModelInput` as consumed by the modelled sources
(`pricingModelUtils.ts`, `templateReplacer.ts`): products, features and
usage meters. -/
structure SetupPricingModelInput where
  products : List PricingProduct := []
  features : List PricingFeature := []
  usageMeters : List UsageMeter := []
deriving DecidableEq, Repr

/-- `PricingModelAnalysis` from `pricingModelUtils.ts`. -/
structure PricingModelAnalysis where
  hasTrials : Bool
  hasUsageMeters : Bool
  hasToggleFeatures : Bool
deriving DecidableEq, Repr

/-- Whether a price carries a trial period
(`price.trialPeriodDays !== undefined && price.trialPeriodDays !== null`). -/
def priceHasTrial (p : PricingPrice) : Bool :=
  match p.trialPeriodDays with
  | some (some _) => true
  | _ => false

/-- Model of `analyzePricingModel` from `pricingModelUtils.ts`. -/
def analyzePricingModel (pricingModelData : SetupPricingModelInput) :
    PricingModelAnalysis where
  hasTrials :=
    pricingModelData.products.any (fun product =>
      product.prices.any priceHasTrial)
  hasUsageMeters := pricingModelData.usageMeters.length > 0
  hasToggleFeatures :=
    pricingModelData.features.any (fun feature =>
      feature.type == FeatureType.toggle)

/-- C4: `analyzePricingModel` sets `hasTrials` exactly when some price of
some product has a trial-period value that is neither null nor absent (so
an explicit zero-length trial counts); `hasUsageMeters` exactly when the
usage-meter collection is non-empty — hence false for zero meters, and
flipped true by adding any meter to any configuration; and
`hasToggleFeatures` exactly when some feature has the toggle type. -/
theorem C4_pricing_analysis (config : SetupPricingModelInput) :
    ((analyzePricingModel config).hasTrials = true ↔
      ∃ product ∈ config.products, ∃ price ∈ product.prices,
        ∃ n : Int, price.trialPeriodDays = some (some n)) ∧
    ((analyzePricingModel config).hasUsageMeters = true ↔
      config.usageMeters ≠ []) ∧
    (∀ meter : UsageMeter,
      (analyzePricingModel
        { config with usageMeters := meter :: config.usageMeters
          }).hasUsageMeters = true) ∧
    ((analyzePricingModel config).hasToggleFeatures = true ↔
      ∃ feature ∈ config.features, feature.type = FeatureType.toggle) ∧
    (analyzePricingModel
      { products := [{ prices := [{ trialPeriodDays := some (some 0) }] }],
        features := [], usageMeters := [] }).hasTrials = true := by
  refine ⟨?_, ?_, ?_, ?_, by decide⟩
  · simp only [analyzePricingModel, List.any_eq_true]
    constructor
    · rintro ⟨product, hp, price, hpr, htr⟩
      refine ⟨product, hp, price, hpr, ?_⟩
      unfold priceHasTrial at htr
      rcases hd : price.trialPeriodDays with - | od
      · rw [hd] at htr; exact Bool.noConfusion htr
      · rcases od with - | n
        · rw [hd] at htr; exact Bool.noConfusion htr
        · exact ⟨n, rfl⟩
    · rintro ⟨product, hp, price, hpr, n, hn⟩
      exact ⟨product, hp, price, hpr, by unfold priceHasTrial; rw [hn]⟩
  · simp only [analyzePricingModel]
    constructor
    · intro h hnil
      rw [hnil] at h
      simp at h
    · intro h
      simp only [decide_eq_true_eq]
      exact List.length_pos.mpr h
  · intro meter
    simp [analyzePricingModel]
  · simp only [analyzePricingModel, List.any_eq_true]
    constructor
    · rintro ⟨feature, hf, ht⟩
      exact ⟨feature, hf, by simpa using ht⟩
    · rintro ⟨feature, hf, ht⟩
      exact ⟨feature, hf, by simpa using ht⟩

/-- Witness for C4: the analysis evaluated on a concrete configuration
with one zero-day-trial price, one usage meter and one toggle feature. -/
theorem C4_pricing_analysis_witness :
    (analyzePricingModel
      { products := [{ prices := [{ trialPeriodDays := some (some 0) }] }],
        features := [{ type := FeatureType.toggle, slug := "f" }],
        usageMeters := [{ slug := "m", name := "M" }] }).hasUsageMeters
      = true :=
  (C4_pricing_analysis
    { products := [{ prices := [{ trialPeriodDays := some (some 0) }] }],
      features := [{ type := FeatureType.toggle, slug := "f" }],
      usageMeters := [{ slug := "m", name := "M" }] }).2.1.mpr
    (by decide)

/-- JavaScript falsy-aware `a || b` for an optional string: absent and
empty are falsy. -/
def jsOrStr (a : Option String) (b : String) : String :=
  match a with
  | none => b
  | some s => if s = "" then b else s

/-- `FrameworkKey` from `codeSnippetUtils.ts`. -/
inductive FrameworkKey where
  | nextjs
  | react
deriving DecidableEq, Repr

/-- The string value of a framework key (used for record lookups). -/
def frameworkKeyStr : FrameworkKey → String
  | .nextjs => "nextjs"
  | .react => "react"

/-- `AuthKey` from `codeSnippetUtils.ts`. -/
inductive AuthKey where
  | supabase
  | clerk
  | nextauth
  | custom
deriving DecidableEq, Repr

/-- The string value of an auth key. -/
def authKeyStr : AuthKey → String
  | .supabase => "supabase"
  | .clerk => "clerk"
  | .nextauth => "nextauth"
  | .custom => "custom"

/-- `LocationKey` from `codeSnippetUtils.ts` (the union
`'src/app' | 'src/pages' | 'app' | 'pages'`). -/
inductive LocationKey where
  | srcApp
  | srcPages
  | app
  | pages
deriving DecidableEq, Repr

/-- The string value of a location key. -/
def locationKeyStr : LocationKey → String
  | .srcApp => "src/app"
  | .srcPages => "src/pages"
  | .app => "app"
  | .pages => "pages"

/-- Model of `getFrameworkKey`: substring tests on the lowercased input,
with `nextjs` as the fallback. -/
def getFrameworkKey (framework : String) : FrameworkKey :=
  let lower := strToLower framework
  if containsSubstr lower "nextjs" || containsSubstr lower "next.js" then
    .nextjs
  else if containsSubstr lower "react" then .react
  else .nextjs

/-- Model of `getAuthKey`: substring tests on the lowercased input, with
`custom` as the fallback. -/
def getAuthKey (authProvider : String) : AuthKey :=
  let lower := strToLower authProvider
  if containsSubstr lower "supabase" then .supabase
  else if containsSubstr lower "clerk" then .clerk
  else if containsSubstr lower "nextauth" ||
      containsSubstr lower "next-auth" then .nextauth
  else .custom

/-- Model of `getLocationKey`: substring tests on the lowercased input,
with `app` as the fallback. -/
def getLocationKey (stackDetails : String) : LocationKey :=
  let lower := strToLower stackDetails
  if containsSubstr lower "src/app" || containsSubstr lower "src\\app" then
    .srcApp
  else if containsSubstr lower "src/pages" ||
      containsSubstr lower "src\\pages" then .srcPages
  else if containsSubstr lower "app router" ||
      containsSubstr lower "app/" then .app
  else if containsSubstr lower "pages router" ||
      containsSubstr lower "pages/" then .pages
  else .app

/-- A framework entry of the snippet library (`codeSnippets.json`):
package names plus the framework route-handler template. -/
structure FrameworkInfo where
  serverPkg : String
  providerPkg : String
  billingHookPkg : String
  routeHandlerTemplate : String
deriving DecidableEq, Repr

/-- The snippet library (`codeSnippets.json`, loaded by
`getSetupInstructions` and typed `any` in the source).  `base` maps auth
provider keys to named snippet strings; `frameworks` maps framework keys
to `FrameworkInfo`; `filePaths` maps file-layout keys to entries of which
the source only consults JavaScript truthiness, modelled by a `Bool`.  The
`frameworks` level itself is modelled as present (its absence would make
the source throw a `TypeError` on `snippets.frameworks[frameworkKey]`
before any of the modelled behaviour). -/
structure SnippetLib where
  base : Option (List (String × List (String × String))) := none
  frameworks : List (String × FrameworkInfo) := []
  filePaths : Option (List (String × Bool)) := none
deriving DecidableEq, Repr

/-- Whether `s` ends with `suffix` (JavaScript `s.endsWith(suffix)`). -/
def strEndsWith (s sfx : String) : Bool := sfx.data.isSuffixOf s.data

/-- JavaScript `s.replace(searchString, replaceValue)` with a string
pattern: replaces the first literal occurrence, applying the
`$`-substitutions to the replacement value. -/
def jsReplaceFirstLit (s pat repl : String) : String :=
  match findLit pat.data s.data with
  | none => s
  | some i =>
    let bef := s.data.take i
    let aft := s.data.drop (i + pat.data.length)
    ⟨bef ++ expandRepl pat.data bef aft repl.data ++ aft⟩

/-- Model of `resolveSnippets` from `codeSnippetUtils.ts`: null when the
base level or the selected framework entry is missing; otherwise each
`Template`-suffixed key is emitted under the key with its first occurrence
of `Template` removed (`key.replace('Template', '')`) and its value run
through the three global marker replacements in order (server, provider,
billing hook); other entries pass through.  The JavaScript original
assigns into a fresh record (last assignment winning on a name collision);
the model keeps the entries in iteration order as an association list. -/
def resolveSnippets (snippets : SnippetLib) (frameworkKey : FrameworkKey) :
    Option (List (String × List (String × String))) :=
  let base := snippets.base
  let framework := snippets.frameworks.lookup (frameworkKeyStr frameworkKey)
  match base, framework with
  | some b, some fw =>
    some (b.map (fun entry =>
      (entry.1, entry.2.map (fun kv =>
        if strEndsWith kv.1 "Template" then
          (jsReplaceFirstLit kv.1 "Template" "",
            regexReplaceAll (regexReplaceAll (regexReplaceAll kv.2
                  "\\\x7bSERVER_PKG\\\x7d" fw.serverPkg)
                "\\\x7bPROVIDER_PKG\\\x7d" fw.providerPkg)
              "\\\x7bBILLING_HOOK_PKG\\\x7d" fw.billingHookPkg)
        else kv))))
  | _, _ => none

theorem regexReplaceAll_eq_spec (s patternSource key val : String)
    (hc : compilePat patternSource.data = key.data.map PatTok.lit)
    (hk : key.data ≠ [])
    (hv : dollarFree val = true) :
    regexReplaceAll s patternSource val = specLiteralReplaceAll s key val := by
  unfold regexReplaceAll specLiteralReplaceAll
  rw [hc]
  exact congrArg String.mk (jsReplaceGo_eq_lit key.data val.data hk
    (expandRepl_of_dollarFree
      (by simpa [dollarFree, Bool.not_eq_true'] using hv))
    (s.data.length + 1) [] s.data)

/-- C7 (counterexample): the claim says every `Template`-suffixed key is
emitted under its suffix-stripped name and that no framework-placeholder
marker survives in any resolved value.  Both parts fail: the source uses
`key.replace('Template', '')`, which removes the first occurrence rather
than the suffix, and a package string that itself contains a marker
reintroduces it after its own replacement step has already run. -/
theorem C7_resolve_snippets_counterexample :
    resolveSnippets
        { base := some [("custom",
            [("TemplateXTemplate", "\x7bPROVIDER_PKG\x7d")])],
          frameworks := [("nextjs",
            { serverPkg := "s", providerPkg := "\x7bSERVER_PKG\x7d",
              billingHookPkg := "b", routeHandlerTemplate := "r" })],
          filePaths := none }
        FrameworkKey.nextjs
      = some [("custom", [("XTemplate", "\x7bSERVER_PKG\x7d")])] ∧
      containsSubstr "\x7bSERVER_PKG\x7d" "\x7bSERVER_PKG\x7d" = true ∧
      ("XTemplate" : String) ≠ "TemplateX" :=
  ⟨by decide, by decide, by decide⟩

/-- C7 (amended): `resolveSnippets` returns null when the base level or
the selected framework entry is missing; otherwise, with package strings
free of `$`, each `Template`-suffixed entry is emitted under the key with
its first occurrence of `Template` removed, its value transformed by
literal leftmost global replacement of the three markers in order
(server, provider, billing hook), and each non-suffixed entry passes
through unchanged.  Each replacement step eliminates every occurrence of
its own marker present in its input; markers contained in or reassembled
around the substituted package strings can remain.  The transform is a
pure function of the library (the model cannot mutate its input). -/
theorem C7_resolve_snippets_amended :
    (∀ lib fk, lib.base = none → resolveSnippets lib fk = none) ∧
      (∀ (lib : SnippetLib) fk,
        lib.frameworks.lookup (frameworkKeyStr fk) = none →
        resolveSnippets lib fk = none) ∧
      (∀ (lib : SnippetLib) fk b fw, lib.base = some b →
        lib.frameworks.lookup (frameworkKeyStr fk) = some fw →
        dollarFree fw.serverPkg = true →
        dollarFree fw.providerPkg = true →
        dollarFree fw.billingHookPkg = true →
        resolveSnippets lib fk = some (b.map (fun entry =>
          (entry.1, entry.2.map (fun kv =>
            if strEndsWith kv.1 "Template" then
              (jsReplaceFirstLit kv.1 "Template" "",
                specLiteralReplaceAll (specLiteralReplaceAll
                    (specLiteralReplaceAll kv.2
                      "\x7bSERVER_PKG\x7d" fw.serverPkg)
                    "\x7bPROVIDER_PKG\x7d" fw.providerPkg)
                  "\x7bBILLING_HOOK_PKG\x7d" fw.billingHookPkg)
            else kv))))) := by
  refine ⟨?_, ?_, ?_⟩
  · intro lib fk hb
    unfold resolveSnippets
    rw [hb]
  · intro lib fk hf
    unfold resolveSnippets
    rw [hf]
    cases lib.base <;> rfl
  · intro lib fk b fw hb hf h1 h2 h3
    unfold resolveSnippets
    rw [hb, hf]
    dsimp only
    refine congrArg some ?_
    refine List.map_congr_left (fun entry _ => ?_)
    refine congrArg (Prod.mk entry.1) ?_
    refine List.map_congr_left (fun kv _ => ?_)
    split
    · refine congrArg (Prod.mk (jsReplaceFirstLit kv.1 "Template" "")) ?_
      rw [regexReplaceAll_eq_spec _ _ "\x7bSERVER_PKG\x7d" _ (by decide)
          (by decide) h1,
        regexReplaceAll_eq_spec _ _ "\x7bPROVIDER_PKG\x7d" _ (by decide)
          (by decide) h2,
        regexReplaceAll_eq_spec _ _ "\x7bBILLING_HOOK_PKG\x7d" _ (by decide)
          (by decide) h3]
    · rfl

/-- Witness for C7: the amended theorem's resolution equation applied to a
concrete one-entry library. -/
theorem C7_resolve_snippets_amended_witness :
    resolveSnippets
        { base := some [("custom",
            [("serverInitTemplate", "use \x7bSERVER_PKG\x7d")])],
          frameworks := [("nextjs",
            { serverPkg := "@flowglad/server", providerPkg := "p",
              billingHookPkg := "h", routeHandlerTemplate := "r" })],
          filePaths := none }
        FrameworkKey.nextjs
      = some ([("custom",
          [("serverInitTemplate", "use \x7bSERVER_PKG\x7d")])].map
          (fun entry => (entry.1, entry.2.map (fun kv =>
            if strEndsWith kv.1 "Template" then
              (jsReplaceFirstLit kv.1 "Template" "",
                specLiteralReplaceAll (specLiteralReplaceAll
                    (specLiteralReplaceAll kv.2
                      "\x7bSERVER_PKG\x7d" "@flowglad/server")
                    "\x7bPROVIDER_PKG\x7d" "p")
                  "\x7bBILLING_HOOK_PKG\x7d" "h")
            else kv)))) :=
  C7_resolve_snippets_amended.2.2
    { base := some [("custom",
        [("serverInitTemplate", "use \x7bSERVER_PKG\x7d")])],
      frameworks := [("nextjs",
        { serverPkg := "@flowglad/server", providerPkg := "p",
          billingHookPkg := "h", routeHandlerTemplate := "r" })],
      filePaths := none }
    FrameworkKey.nextjs
    [("custom", [("serverInitTemplate", "use \x7bSERVER_PKG\x7d")])]
    { serverPkg := "@flowglad/server", providerPkg := "p",
      billingHookPkg := "h", routeHandlerTemplate := "r" }
    rfl (by decide) (by decide) (by decide) (by decide)

/-- Whether an optional string argument is JavaScript-falsy (absent or
empty). -/
def isFalsyOpt (o : Option String) : Bool :=
  match o with
  | none => true
  | some s => s == ""

/-- Whether `s` starts with `pre` (JavaScript `s.startsWith(pre)`). -/
def strStartsWith (s pre : String) : Bool := pre.data.isPrefixOf s.data

/-- The anchored strip `customerIdSource.replace(/^(user\.|session\.user\.)/, '')`
from the fallback branch of `buildTemplateReplacements`; the alternation is
anchored, so only a leading occurrence is removed. -/
def stripUserDot (s : String) : String :=
  if strStartsWith s "user." then ⟨s.data.drop 5⟩
  else if strStartsWith s "session.user." then ⟨s.data.drop 13⟩
  else s

/-- JavaScript `s.split('.')[0]`: the (possibly empty) first segment. -/
def firstSegment (s : String) : String :=
  ⟨s.data.takeWhile (fun c => !(c == '.'))⟩

/-- `customerIdField` from the fallback branch:
`customerIdSource.replace(/^(user\.|session\.user\.)/, '').split('.')[0] || 'id'`. -/
def customerIdFieldOf (customerIdSource : String) : String :=
  let f := firstSegment (stripUserDot customerIdSource)
  if f = "" then "id" else f

/-- The end-anchored extension strip `.replace(/\.(ts|tsx|js|jsx)$/, '')`
(the four suffixes are mutually exclusive, so the alternation order is
immaterial). -/
def stripExt (s : String) : String :=
  if strEndsWith s ".tsx" then ⟨s.data.take (s.data.length - 4)⟩
  else if strEndsWith s ".jsx" then ⟨s.data.take (s.data.length - 4)⟩
  else if strEndsWith s ".ts" then ⟨s.data.take (s.data.length - 3)⟩
  else if strEndsWith s ".js" then ⟨s.data.take (s.data.length - 3)⟩
  else s

/-- Truthiness test for the first regex of the routing-info expression,
`/If Next\.js: Is it using App Router|Pages Router/i`: the alternation
splits the whole pattern, so the document matches when it contains either
literal, case-insensitively. -/
def routingCond (doc : String) : Bool :=
  (findCi "If Next.js: Is it using App Router".data doc.data).isSome ||
    (findCi "Pages Router".data doc.data).isSome

/-- Tries one alternative of the second routing regex at the current
position: the literal `pre`, a backtick, a nonempty captured run of
non-backtick characters, then a backtick and a closing parenthesis. -/
def altCapAt (pre : List Char) (rest : List Char) : Option (List Char) :=
  if ciStartsWith pre rest then
    let r1 := rest.drop pre.length
    let cap := r1.takeWhile (fun c => !(c == btick))
    if cap.isEmpty then none
    else
      match r1.drop cap.length with
      | c1 :: c2 :: _ =>
        if c1 == btick && c2 == ')' then some cap else none
      | _ => none
  else none

/-- First match of
`/App Router \(`…`\)|Pages Router \(`…`\)/i` (backtick-quoted capture):
`some (some cap)` when the App-Router alternative wins, `some none` when
the Pages-Router alternative wins (capture group 1 undefined), `none` when
neither occurs.  At each position the first alternative is tried first. -/
def routingCaptureScan : List Char → Option (Option (List Char))
  | [] => none
  | c :: cs =>
    match altCapAt ("App Router (".data ++ [btick]) (c :: cs) with
    | some cap => some (some cap)
    | none =>
      match altCapAt ("Pages Router (".data ++ [btick]) (c :: cs) with
      | some _ => some none
      | none => routingCaptureScan cs

/-- The `routingInfo` expression of `buildTemplateReplacements`. -/
def routingInfoOf (finalProjectStructure : ProjectStructure)
    (codebaseAnalysis : Option String) : String :=
  match finalProjectStructure with
  | .react => "Standard React routing"
  | .nextjs =>
    match codebaseAnalysis with
    | none => "App Router"
    | some doc =>
      if routingCond doc then
        match routingCaptureScan doc.data with
        | some (some cap) => jsOrStr (some ⟨cap⟩) "App Router"
        | _ => "App Router"
      else "App Router"

/-- The `authFilePath` expression of `buildTemplateReplacements`. -/
def authFilePathOf (codebaseAnalysis : Option String) : String :=
  match codebaseAnalysis with
  | none => "src/lib/auth.ts"
  | some doc =>
    if doc = "" then "src/lib/auth.ts"
    else
      jsOrStr
        (promptLineMatch "Where is the server-side auth configuration?" doc)
        "src/lib/auth.ts"

/-- The `authProvider` expression of `buildTemplateReplacements`
(`codebaseAnalysis ? getAuthKey(codebaseAnalysis) : getAuthKey(finalStackDetails)`). -/
def authProviderOf (codebaseAnalysis : Option String)
    (finalStackDetails : String) : AuthKey :=
  match codebaseAnalysis with
  | none => getAuthKey finalStackDetails
  | some doc =>
    if doc = "" then getAuthKey finalStackDetails else getAuthKey doc

/-- `TemplateReplacementContext` from `templateReplacer.ts`. -/
structure TemplateReplacementContext where
  codebaseInfo : ExtractedCodebaseInfo
  codebaseAnalysis : Option String
  pricingModelData : Option SetupPricingModelInput
  snippets : SnippetLib
  finalProjectStructure : ProjectStructure
  finalStackDetails : String

/-- The four token-map entries assigned in the fallback branch of
`buildTemplateReplacements` (when the snippet lookups are not all
truthy). -/
def fallbackCodeEntries (codebaseInfo : ExtractedCodebaseInfo) :
    List (String × String) :=
  let customerIdField := customerIdFieldOf codebaseInfo.customerIdSource
  [("\x7bFLOWGLAD_SERVER_CODE\x7d",
    "import \x7b FlowgladServer \x7d from \x27@flowglad/server\x27\nimport \x7b getSessionUser \x7d from \x27" ++
      codebaseInfo.filePaths.libPath ++
      "/auth\x27\n\nexport const flowgladServer = new FlowgladServer(\x7b\n  apiKey: process.env.FLOWGLAD_SECRET_KEY,\n  getRequestingCustomer: async () => \x7b\n    const user = await getSessionUser()\n    if (!user) \x7b\n      throw new Error(\x27Unauthorized\x27)\n    \x7d\n    return \x7b\n      externalId: user." ++
      customerIdField ++
      ",\n      email: user.email,\n      name: user.name,\n    \x7d\n  \x7d,\n\x7d)"),
  ("\x7bFLOWGLAD_ROUTE_CODE\x7d",
    "import \x7b flowgladServer \x7d from \x27" ++
      stripExt codebaseInfo.filePaths.serverFile ++
      "\x27\n\nexport async function GET(request: Request) \x7b\n  return flowgladServer.handleRequest(request)\n\x7d\n\nexport async function POST(request: Request) \x7b\n  return flowgladServer.handleRequest(request)\n\x7d"),
  ("\x7bFRONTEND_PROVIDER_SECTION\x7d",
    "Add FlowgladProvider to your root layout."),
  ("\x7bBILLING_HELPERS_CODE\x7d", "// Billing helper functions")]

/-- Model of `buildTemplateReplacements` from `templateReplacer.ts`: the
token map as an association list in the JavaScript record's own-property
insertion order — the base literal entries followed by the four entries
assigned in the snippet branch (when the resolved auth snippets, the
file-path entry for the location key, and the framework entry are all
truthy) or in the fallback branch.  A snippet entry missing from the
resolved auth record reads as JavaScript `undefined`, which the `replace`
call and template literals stringify as `"undefined"`, modelled by
`Option.getD "undefined"`. -/
def buildTemplateReplacements (context : TemplateReplacementContext) :
    List (String × String) :=
  let codebaseInfo := context.codebaseInfo
  let usageMeterSlugs :=
    jsOrStr (context.pricingModelData.map (fun pm =>
      String.intercalate ", " (pm.usageMeters.map UsageMeter.slug)))
      "usage_meter_slug"
  let featureToggleSlugs :=
    jsOrStr (context.pricingModelData.map (fun pm =>
      String.intercalate ", " ((pm.features.filter
        (fun f => f.type == FeatureType.toggle)).map PricingFeature.slug)))
      "feature_slug"
  let productNames :=
    jsOrStr (context.pricingModelData.map (fun pm =>
      String.intercalate ", " (pm.products.map (fun p =>
        jsOrStr (p.product.bind ProductInfo.name)
          (jsOrStr (p.product.bind ProductInfo.slug) "Product")))))
      "Product Name"
  let routingInfo :=
    routingInfoOf context.finalProjectStructure context.codebaseAnalysis
  let frameworkKey :=
    getFrameworkKey (match context.finalProjectStructure with
      | .nextjs => "nextjs"
      | .react => "react")
  let frameworkInfo :=
    context.snippets.frameworks.lookup (frameworkKeyStr frameworkKey)
  let authProvider :=
    authProviderOf context.codebaseAnalysis context.finalStackDetails
  let authFilePath := authFilePathOf context.codebaseAnalysis
  let base : List (String × String) := [
    ("\x7bFRAMEWORK\x7d", codebaseInfo.framework),
    ("\x7bLANGUAGE\x7d", codebaseInfo.language),
    ("\x7bFRAMEWORK_ROUTING_INFO\x7d", routingInfo),
    ("\x7bAUTH_LIBRARY\x7d", codebaseInfo.authLibrary),
    ("\x7bAUTH_FILE_PATHS\x7d", authFilePath),
    ("\x7bCUSTOMER_ENTITY\x7d",
      if codebaseInfo.customerModel == CustomerModel.B2B then "organization"
      else "user"),
    ("\x7bCUSTOMER_ID_SOURCE\x7d", codebaseInfo.customerIdSource),
    ("\x7bFRONTEND_FRAMEWORK\x7d", codebaseInfo.framework),
    ("\x7bFLOWGLAD_CLIENT_PACKAGE\x7d",
      jsOrStr (frameworkInfo.map FrameworkInfo.providerPkg)
        "@flowglad/nextjs"),
    ("\x7bUSAGE_METER_EXAMPLES\x7d", usageMeterSlugs),
    ("\x7bFEATURE_TOGGLE_EXAMPLES\x7d", featureToggleSlugs),
    ("\x7bUSAGE_METER_SLUGS\x7d", usageMeterSlugs),
    ("\x7bFEATURE_TOGGLE_SLUGS\x7d", featureToggleSlugs),
    ("\x7bPRODUCT_NAMES\x7d", productNames),
    ("\x7bPACKAGE_FILE\x7d", codebaseInfo.filePaths.packageFile),
    ("\x7bPACKAGE_DEPENDENCIES_CODE\x7d",
      "\x60\x60\x60json\n\x7b\n  \"@flowglad/nextjs\": \"latest\",\n  \"@flowglad/server\": \"latest\"\n\x7d\n\x60\x60\x60"),
    ("\x7bPACKAGE_SCRIPTS_CODE\x7d", ""),
    ("\x7bFLOWGLAD_SERVER_PATH\x7d", codebaseInfo.filePaths.serverFile),
    ("\x7bFLOWGLAD_ROUTE_PATH\x7d", codebaseInfo.filePaths.routeHandler),
    ("\x7bPROVIDER_COMPONENT_PATH\x7d",
      codebaseInfo.filePaths.libPath ++ "/providers.tsx"),
    ("\x7bROOT_LAYOUT_PATH\x7d", codebaseInfo.filePaths.layoutFile),
    ("\x7bMOCK_BILLING_PATH\x7d", codebaseInfo.filePaths.mockBillingPath),
    ("\x7bMOCK_BILLING_IMPORT_PATH\x7d",
      stripExt codebaseInfo.filePaths.mockBillingPath),
    ("\x7bBILLING_HELPERS_PATH\x7d",
      codebaseInfo.filePaths.libPath ++ "/billing-helpers.ts"),
    ("\x7bTYPE_SYSTEM\x7d",
      if containsSubstr codebaseInfo.language "TypeScript" then "TypeScript"
      else "JavaScript"),
    ("\x7bUSAGE_EVENTS_ROUTE_PATH\x7d",
      codebaseInfo.filePaths.apiRoutePath ++ "/usage-events/route.ts"),
    ("\x7bPRICING_COMPONENT_PATH\x7d",
      codebaseInfo.filePaths.pricingComponentPath),
    ("\x7bNAVBAR_COMPONENT_PATH\x7d",
      codebaseInfo.filePaths.navbarComponentPath),
    ("\x7bDASHBOARD_COMPONENT_PATH\x7d",
      codebaseInfo.filePaths.dashboardComponentPath),
    ("\x7bENV_FILE\x7d", codebaseInfo.filePaths.envFile),
    ("\x7bENV_VAR_ACCESS\x7d", codebaseInfo.filePaths.envVarAccess),
    ("\x7bLANGUAGE_EXTENSION\x7d",
      if containsSubstr codebaseInfo.language "TypeScript" then "typescript"
      else "javascript"),
    ("\x7bUSAGE_EXAMPLES\x7d", usageMeterSlugs),
    ("\x7bUSAGE_METER_DEFINITIONS\x7d",
      jsOrStr (context.pricingModelData.map (fun pm =>
        String.intercalate "\n" (pm.usageMeters.map (fun m =>
          "- " ++ m.slug ++ ": " ++ m.name))))
        "- usage_meter_slug: Usage Meter Name")]
  let locationKey := getLocationKey context.finalStackDetails
  let resolvedSnippets := resolveSnippets context.snippets frameworkKey
  let authSnippets :=
    resolvedSnippets.bind (fun r => r.lookup (authKeyStr authProvider))
  let filePathsEntry :=
    (context.snippets.filePaths.bind (fun fp =>
      fp.lookup (locationKeyStr locationKey))).getD false
  let frameworkSnippets :=
    context.snippets.frameworks.lookup (frameworkKeyStr frameworkKey)
  match authSnippets, frameworkSnippets with
  | some authSnips, some fwSnips =>
    if filePathsEntry then
      base ++ [
        ("\x7bFLOWGLAD_SERVER_CODE\x7d",
          (authSnips.lookup "serverInit").getD "undefined"),
        ("\x7bFLOWGLAD_ROUTE_CODE\x7d",
          regexReplaceAll fwSnips.routeHandlerTemplate
            "\\\x7bSERVER_PKG\\\x7d" fwSnips.serverPkg),
        ("\x7bFRONTEND_PROVIDER_SECTION\x7d",
          "Add the FlowgladProvider to your root layout:\n\n\x60\x60\x60tsx\n" ++
            regexReplaceAll ((authSnips.lookup "layoutImport").getD "undefined")
              "\\\x7bPROVIDER_PKG\\\x7d" fwSnips.providerPkg ++
            "\n\nexport default function RootLayout(\x7b children \x7d: \x7b children: React.ReactNode \x7d) \x7b\n  return (\n    <html>\n      <body>\n        " ++
            (authSnips.lookup "layoutProvider").getD "undefined" ++
            "\n          \x7bchildren\x7d\n        " ++
            jsOrStr (authSnips.lookup "layoutProviderClose")
              "</FlowgladProvider>" ++
            "\n      </body>\n    </html>\n  )\n\x7d\n\x60\x60\x60"),
        ("\x7bBILLING_HELPERS_CODE\x7d",
          "// Helper functions for billing UI\n// Add your custom billing helpers here")]
    else
      base ++ fallbackCodeEntries codebaseInfo
  | _, _ => base ++ fallbackCodeEntries codebaseInfo

/-- The free-trials instructional section pushed by
`constructPricingModelInstructions` (transcribed verbatim from
`pricingModelUtils.ts`). -/
def trialsSectionText : String :=
  "## Free Trials\n\nYour pricing model includes products with free trials. When customers subscribe to a product with a trial period, they will have access to the product features during the trial without being charged. After the trial period ends, billing will begin automatically.\n\n<Important>\nTrial periods are automatically handled by Flowglad. You don\x27t need to implement any special logic for trial management - just ensure your products are configured with the correct \x60trialPeriodDays\x60 values in your pricing model.\n</Important>\n"

/-- The usage-based pricing instructional section pushed by
`constructPricingModelInstructions` (transcribed verbatim from
`pricingModelUtils.ts`). -/
def usageSectionText : String :=
  "## Usage-Based Pricing\n\nYour pricing model includes usage meters. You\x27ll need to:\n\n1. **Check usage balances** before allowing usage-based operations\n2. **Record usage events** when customers consume metered resources\n\n### Checking Usage Balances\n\nUse \x60checkUsageBalance\x60 to see how much of a usage meter a customer has remaining:\n\n\x60\x60\x60tsx\n\x27use client\x27\n\nimport \x7b useBilling \x7d from \x27@flowglad/nextjs\x27\n\nexport function UsageBalanceIndicator(\x7b\n  usageMeterSlug,\n\x7d: \x7b\n  usageMeterSlug: string\n\x7d) \x7b\n  const \x7b\n    loaded,\n    errors,\n    checkUsageBalance,\n  \x7d = useBilling()\n\n  if (!loaded || !checkUsageBalance) \x7b\n    return <p>Loading usage…</p>\n  \x7d\n\n  if (errors) \x7b\n    return <p>Unable to load billing data right now.</p>\n  \x7d\n\n  const usage = checkUsageBalance(usageMeterSlug)\n\n  return (\n    <div>\n      <h3>Usage Balance</h3>\n      <p>\n        Remaining:\x7b\x27 \x27\x7d\n        \x7busage ? \x60$\x7busage.availableBalance\x7d credits\x60 : \x27No usage meter found\x27\x7d\n      </p>\n    </div>\n  )\n\x7d\n\x60\x60\x60\n\n### Recording Usage Events\n\nOn the server, use \x60createUsageEvent\x60 to record when customers consume metered resources:\n\n\x60\x60\x60ts\nimport \x7b FlowgladServer \x7d from \x27@flowglad/server\x27\nimport \x7b getSessionUser \x7d from \x27@/lib/auth\x27\n\nconst flowgladServer = new FlowgladServer(\x7b\n  apiKey: process.env.FLOWGLAD_SECRET_KEY,\n  getRequestingCustomer: async () => \x7b\n    const user = await getSessionUser()\n    if (!user) \x7b\n      throw new Error(\x27Unauthorized\x27)\n    \x7d\n\n    return \x7b\n      externalId: user.id,\n      email: user.email,\n      name: user.name,\n    \x7d\n  \x7d,\n\x7d)\n\n// Example: Record usage when an API call is made\nexport async function POST(request: Request) \x7b\n  const \x7b amount, usageMeterId, subscriptionId, priceId \x7d = await request.json()\n\n  // Note: You\x27ll need to resolve the usageMeterId from the usageMeterSlug\n  // by querying your database or using the billing object to get usage meter details\n  \n  const usageEvent = await flowgladServer.createUsageEvent(\x7b\n    amount,\n    priceId,\n    subscriptionId,\n    usageMeterId,\n    transactionId: crypto.randomUUID(),\n    usageDate: Date.now(),\n  \x7d)\n\n  return Response.json(\x7b usageEvent \x7d)\n\x7d\n\x60\x60\x60\n\n<Important>\nUsage events should be recorded server-side to prevent tampering. Always validate the amount and ensure the customer has sufficient balance before allowing the operation.\n</Important>\n"

/-- The toggle features instructional section pushed by
`constructPricingModelInstructions` (transcribed verbatim from
`pricingModelUtils.ts`). -/
def toggleSectionText : String :=
  "## Feature Access (Toggle Features)\n\nYour pricing model includes toggle-type features. Use \x60checkFeatureAccess\x60 to gate premium functionality:\n\n\x60\x60\x60tsx\n\x27use client\x27\n\nimport \x7b useBilling \x7d from \x27@flowglad/nextjs\x27\n\nexport function FeatureAccessGate(\x7b\n  featureSlug,\n\x7d: \x7b\n  featureSlug: string\n\x7d) \x7b\n  const \x7b\n    loaded,\n    errors,\n    checkFeatureAccess,\n  \x7d = useBilling()\n\n  if (!loaded || !checkFeatureAccess) \x7b\n    return <p>Loading billing state…</p>\n  \x7d\n\n  if (errors) \x7b\n    return <p>Unable to load billing data right now.</p>\n  \x7d\n\n  return (\n    <div>\n      <h3>Feature Access</h3>\n      \x7bcheckFeatureAccess(featureSlug) ? (\n        <p>You can use this feature ✨</p>\n      ) : (\n        <p>You need to upgrade to unlock this feature.</p>\n      )\x7d\n    </div>\n  )\n\x7d\n\x60\x60\x60\n\nYou can also check feature access on the server:\n\n\x60\x60\x60ts\nimport \x7b NextResponse \x7d from \x27next/server\x27\nimport \x7b FlowgladServer \x7d from \x27@flowglad/server\x27\nimport \x7b getSessionUser \x7d from \x27@/lib/auth\x27\n\nconst flowgladServer = new FlowgladServer(\x7b\n  apiKey: process.env.FLOWGLAD_SECRET_KEY,\n  getRequestingCustomer: async () => \x7b\n    const user = await getSessionUser()\n    if (!user) \x7b\n      throw new Error(\x27Unauthorized\x27)\n    \x7d\n\n    return \x7b\n      externalId: user.id,\n      email: user.email,\n      name: user.name,\n    \x7d\n  \x7d,\n\x7d)\n\nexport async function GET(request: Request) \x7b\n  const \x7b searchParams \x7d = new URL(request.url)\n  const featureSlug = searchParams.get(\x27featureSlug\x27) ?? \x27ai-copilot\x27\n\n  const billing = await flowgladServer.getBilling()\n  const hasAccess = billing.checkFeatureAccess(featureSlug)\n\n  return NextResponse.json(\x7b featureSlug, hasAccess \x7d)\n\x7d\n\x60\x60\x60\n"

/-- Model of `constructPricingModelInstructions` from
`pricingModelUtils.ts`: the gated sections in fixed order (trials, usage
metering, toggle features), joined by a blank line; the configuration
argument is accepted but, as in the source, not read. -/
def constructPricingModelInstructions
    (pricingModelData : SetupPricingModelInput)
    (analysis : PricingModelAnalysis) : String :=
  let sections : List String :=
    (if analysis.hasTrials then [trialsSectionText] else []) ++
      (if analysis.hasUsageMeters then [usageSectionText] else []) ++
      (if analysis.hasToggleFeatures then [toggleSectionText] else [])
  String.intercalate "\n\n" sections

/-- Lowercase hexadecimal digit, for JSON control-character escapes. -/
def hexDigit (n : Nat) : Char :=
  if n < 10 then Char.ofNat (48 + n) else Char.ofNat (87 + n)

/-- JSON escaping of one character as `JSON.stringify` performs it. -/
def jsonEscapeChar (c : Char) : List Char :=
  if c == '"' then ['\\', '"']
  else if c == '\\' then ['\\', '\\']
  else if c == '\x08' then ['\\', 'b']
  else if c == '\x0c' then ['\\', 'f']
  else if c == '\n' then ['\\', 'n']
  else if c == '\r' then ['\\', 'r']
  else if c == '\t' then ['\\', 't']
  else if c.toNat < 32 then
    ['\\', 'u', '0', '0', hexDigit (c.toNat / 16), hexDigit (c.toNat % 16)]
  else [c]

/-- `JSON.stringify` of a string. -/
def jsonQuote (s : String) : String :=
  ⟨'"' :: (s.data.map jsonEscapeChar).join ++ ['"']⟩

/-- `JSON.stringify` of an array of strings (no indentation argument). -/
def jsonStringifyStrArr (l : List String) : String :=
  "[" ++ String.intercalate "," (l.map jsonQuote) ++ "]"

/-- One entry of the `fileContents` tool argument. -/
structure FileEntry where
  path : String
  content : String
deriving DecidableEq, Repr

/-- Model of the `analyzeCodebase` tool callback from `analyzeCodebase.ts`
on a present `fileContents` array, with the analysis prompt (the static
`analyze-codebase.md` resource) supplied as a parameter: entries with a
falsy path are filtered out; with no valid file the fixed JSON error text
is returned; otherwise the prompt is concatenated with the rendered
files and the task trailer. -/
def analyzeCodebaseRun (analysisPrompt : String)
    (fileContents : List FileEntry) (projectRoot : Option String) : String :=
  let validFiles := fileContents.filter (fun f => !(f.path == ""))
  if validFiles.isEmpty then
    "\x7b\n  \"error\": \"No valid files provided for analysis\",\n  \"message\": \"Please provide files with both path and content properties.\",\n  \"received\": " ++
      (if fileContents.length == 0 then "\"Empty array\""
        else jsonQuote (toString fileContents.length ++
          " file(s) provided, but none had valid path and content")) ++
      "\n\x7d"
  else
    let filesContext := String.intercalate "\n\n---\n\n"
      (validFiles.map (fun f =>
        "## File: " ++ f.path ++ "\n\n\x60\x60\x60\n" ++ f.content ++
          "\n\x60\x60\x60"))
    analysisPrompt ++ "\n\n---\n\n# Codebase Files to Analyze\n\n" ++
      (match projectRoot with
        | none => ""
        | some r =>
          if r = "" then "" else "**Project Root:** " ++ r ++ "\n\n") ++
      "**Files Analyzed:** " ++ toString validFiles.length ++
      "\n\n---\n\n" ++ filesContext ++
      "\n\n---\n\n# Your Task\n\nPlease analyze the above codebase files according to the prompt above and create a comprehensive markdown document that covers all sections. The document should be complete and ready to be used as context for generating a Flowglad integration guide."

/-- The arguments of the `getSetupInstructions` tool
(`getSetupInstructionsSchema`). -/
structure SetupInstructionsArgs where
  fileContents : Option (List FileEntry) := none
  codebaseAnalysis : Option String := none
  projectStructure : Option ProjectStructure := none
  pricingComponents : List String := []
  stackDetails : Option String := none
  additionalDetails : Option String := none
deriving DecidableEq, Repr

/-- The outcomes of the external collaborators of one
`getSetupInstructions` invocation, supplied as explicit inputs of the
shallow embedding: the `MCP_API_KEY` environment variable, the pricing
fetch (`authenticatedTransaction` — `.error` models a thrown exception,
`.ok none` no default pricing model), the `yaml.stringify` serialization
outcome for the fetched data, the two static resources, and the analysis
prompt resource. -/
structure ExternalEnv where
  envApiKey : Option String := none
  fetchOutcome : Except Unit (Option SetupPricingModelInput) := .ok none
  yamlOutcome : Except Unit String := .ok ""
  generationTemplate : String := ""
  snippets : SnippetLib := {}
  analysisPrompt : String := ""

/-- The env-variable fallback of the bearer token: `MCP_API_KEY || ''`,
with a leading `Bearer ` prefix stripped and trimmed. -/
def stripBearer (s : String) : String :=
  if strStartsWith s "Bearer " then jsTrim ⟨s.data.drop 7⟩ else s

/-- The bearer-token resolution at the top of the
`getSetupInstructions` callback: the `apiKey` parameter, else the
environment variable. -/
def resolveBearer (apiKey : String) (envApiKey : Option String) : String :=
  if apiKey = "" ∨ jsTrim apiKey = "" then stripBearer (jsOrStr envApiKey "")
  else apiKey

/-- Whether the resolved bearer token passes the authentication check. -/
def authOk (apiKey : String) (env : ExternalEnv) : Bool :=
  !(resolveBearer apiKey env.envApiKey == "" ||
    jsTrim (resolveBearer apiKey env.envApiKey) == "")

/-- The two-phase redirect text returned when file contents are supplied
without an analysis document (transcribed from `getSetupInstructions.ts`),
wrapping the analysis-delegation output. -/
def redirectText (pricingComponents : List String)
    (files : List FileEntry) (analysisPrompt : String) : String :=
  "# Codebase Analysis Required\n\nBefore generating setup instructions, please analyze the codebase first using the analyzeCodebase tool.\n\n## Step 1: Analyze the Codebase\n\nThe analyzeCodebase tool has been called with your file contents. Please analyze the codebase according to the prompt and create a comprehensive markdown document.\n\n## Step 2: Generate Setup Instructions\n\nOnce you have completed the codebase analysis and created the markdown document, call getSetupInstructions again with:\n- \x60codebaseAnalysis\x60: The complete markdown document from your analysis\n- \x60fileContents\x60: (same as before, optional)\n- \x60pricingComponents\x60: " ++
    jsonStringifyStrArr pricingComponents ++
    "\n\n---\n\n## Analysis Request from analyzeCodebase:\n\n" ++
    analyzeCodebaseRun analysisPrompt files none

/-- The customized instructions of a generation run: extraction, token-map
construction, template substitution, and the analysis prepend (when a
truthy analysis document is present).  The source also computes a
`finalAdditionalDetails` local, which it never reads; it is omitted
here. -/
def customizedInstructionsOf (args : SetupInstructionsArgs)
    (env : ExternalEnv)
    (pricingModelData : Option SetupPricingModelInput) : String :=
  let codebaseInfo := extractCodebaseInfo args.codebaseAnalysis {}
  let finalProjectStructure : ProjectStructure :=
    match args.projectStructure with
    | some p => p
    | none =>
      match codebaseInfo.projectStructure with
      | some p => p
      | none => .nextjs
  let finalStackDetails : String :=
    jsOrStr args.stackDetails
      (jsOrStr codebaseInfo.stackDetails "No stack details provided.")
  let templateReplacements := buildTemplateReplacements
    { codebaseInfo := codebaseInfo,
      codebaseAnalysis := args.codebaseAnalysis,
      pricingModelData := pricingModelData,
      snippets := env.snippets,
      finalProjectStructure := finalProjectStructure,
      finalStackDetails := finalStackDetails }
  let customized0 :=
    applyTemplateReplacements env.generationTemplate templateReplacements
  if isFalsyOpt args.codebaseAnalysis then customized0
  else
    "# Codebase Analysis\n\n" ++ args.codebaseAnalysis.getD "" ++
      "\n\n---\n\n# Flowglad Integration Instructions\n\n" ++ customized0

/-- The pricing-model status tail appended when the generation run has no
serialized configuration: the status message distinguishes a missing
pricing model, a failed serialization, and a failed analysis. -/
def statusTail (pricingModelData : Option SetupPricingModelInput)
    (pricingModelYAML : Option String) : String :=
  let pricingModelStatus :=
    match pricingModelData with
    | none => "No default pricing model found for your organization. You can set up your pricing model in the Flowglad dashboard."
    | some _ =>
      match pricingModelYAML with
      | none => "Failed to generate YAML from pricing model data. Please check the console for errors."
      | some _ => "Pricing model data was found but analysis failed. The YAML may be incomplete."
  "\n\n---\n\n## Pricing Model Status\n\n" ++ pricingModelStatus ++
    "\n\nTo use pricing model-specific instructions, ensure you have:\n1. Created a default pricing model in your Flowglad organization\n2. Configured products, prices, features, and usage meters (if applicable)\n"

/-- The generation path of `getSetupInstructions`: fetch outcome cases
mirror the source's try/catch and truthiness tests — a thrown fetch or an
absent pricing model leaves all three pricing locals null; a successful
fetch with a failed serialization keeps the data but no YAML; a successful
serialization also runs the analysis.  The final document is the
customized instructions plus either the pricing-configuration block or the
status tail. -/
def generationOutput (args : SetupInstructionsArgs) (env : ExternalEnv) :
    String :=
  match env.fetchOutcome with
  | .error _ => customizedInstructionsOf args env none ++ statusTail none none
  | .ok none => customizedInstructionsOf args env none ++ statusTail none none
  | .ok (some pm) =>
    match env.yamlOutcome with
    | .error _ =>
      customizedInstructionsOf args env (some pm) ++ statusTail (some pm) none
    | .ok y =>
      if y = "" then
        customizedInstructionsOf args env (some pm) ++
          statusTail (some pm) (some y)
      else
        let pmi := constructPricingModelInstructions pm
          (analyzePricingModel pm)
        customizedInstructionsOf args env (some pm) ++
          "\n\n# Pricing Model Configuration\n\nYour organization\x27s default pricing model has been detected. Use the following configuration when setting up products and features:\n\n\x60\x60\x60yaml\n" ++
          y ++ "\n\x60\x60\x60\n\n" ++
          (if pmi = "" then "" else "\n" ++ pmi) ++ "\n"

/-- Model of the `getSetupInstructions` tool callback from
`getSetupInstructions.ts`: bearer-token resolution (raising the fixed
error when no key is available), then the two-phase check — file contents
present and non-empty with a falsy analysis document return the redirect
text; otherwise the generation path runs. -/
def getSetupInstructionsRun (apiKey : String)
    (args : SetupInstructionsArgs) (env : ExternalEnv) :
    Except String String :=
  let bearer := resolveBearer apiKey env.envApiKey
  if bearer = "" ∨ jsTrim bearer = "" then
    .error "No API key provided. The tool requires authentication via API key in the Authorization header or MCP_API_KEY environment variable."
  else
    match args.fileContents with
    | some files =>
      if 0 < files.length ∧ isFalsyOpt args.codebaseAnalysis = true then
        .ok (redirectText args.pricingComponents files env.analysisPrompt)
      else .ok (generationOutput args env)
    | none => .ok (generationOutput args env)

theorem containsSubL_nil_key (l : List Char) : containsSubL [] l = true := by
  cases l with
  | nil => rfl
  | cons c cs => simp [containsSubL, List.isPrefixOf]

theorem containsSubL_append_left (key a b : List Char)
    (h : containsSubL key a = true) : containsSubL key (a ++ b) = true := by
  induction a with
  | nil =>
    simp only [containsSubL, List.isEmpty_iff] at h
    subst h
    exact containsSubL_nil_key b
  | cons c cs ih =>
    simp only [containsSubL, Bool.or_eq_true] at h ⊢
    rcases h with h | h
    · left
      rw [List.isPrefixOf_iff_prefix] at h ⊢
      exact h.trans (List.prefix_append (c :: cs) b)
    · right
      exact ih h

theorem containsSubstr_append_left (a b key : String)
    (h : containsSubstr a key = true) :
    containsSubstr (a ++ b) key = true := by
  unfold containsSubstr at h ⊢
  rw [String.data_append]
  exact containsSubL_append_left key.data a.data b.data h

/-- The redirect condition of the source
(`fileContents && fileContents.length > 0 && !codebaseAnalysis`). -/
def redirectCond (args : SetupInstructionsArgs) : Bool :=
  match args.fileContents with
  | some files =>
    decide (0 < files.length) && isFalsyOpt args.codebaseAnalysis
  | none => false

theorem authOk_elim {apiKey : String} {env : ExternalEnv}
    (hauth : authOk apiKey env = true) :
    ¬(resolveBearer apiKey env.envApiKey = "" ∨
      jsTrim (resolveBearer apiKey env.envApiKey) = "") := by
  simp only [authOk, Bool.not_eq_true', Bool.or_eq_false_iff,
    beq_eq_false_iff_ne, ne_eq] at hauth
  rintro (h | h)
  · exact hauth.1 h
  · exact hauth.2 h

theorem run_redirect (apiKey : String) (args : SetupInstructionsArgs)
    (env : ExternalEnv) (files : List FileEntry)
    (hf : args.fileContents = some files) (hne : files ≠ [])
    (hfalsy : isFalsyOpt args.codebaseAnalysis = true)
    (hauth : authOk apiKey env = true) :
    getSetupInstructionsRun apiKey args env =
      .ok (redirectText args.pricingComponents files env.analysisPrompt) := by
  unfold getSetupInstructionsRun
  dsimp only
  rw [if_neg (authOk_elim hauth), hf]
  dsimp only
  rw [if_pos ⟨List.length_pos.mpr hne, hfalsy⟩]

theorem run_generation (apiKey : String) (args : SetupInstructionsArgs)
    (env : ExternalEnv) (hauth : authOk apiKey env = true)
    (hrc : redirectCond args = false) :
    getSetupInstructionsRun apiKey args env =
      .ok (generationOutput args env) := by
  unfold getSetupInstructionsRun
  dsimp only
  rw [if_neg (authOk_elim hauth)]
  cases hf : args.fileContents with
  | none => rfl
  | some files =>
    dsimp only
    rw [if_neg ?_]
    unfold redirectCond at hrc
    rw [hf] at hrc
    dsimp only at hrc
    rintro ⟨h1, h2⟩
    rw [decide_eq_true h1, h2] at hrc
    exact Bool.noConfusion hrc

set_option maxRecDepth 100000 in
/-- C5: two-phase protocol of `getSetupInstructions`.  With a non-empty
`fileContents` array and a falsy `codebaseAnalysis`, the run is
independent of the pricing fetch, the serialization outcome, the
generation template and the snippet library (no generation work is
consulted), and returns the analysis-delegation output wrapped in the
redirect text, which contains the literal phrase instructing re-invocation
with `codebaseAnalysis`; in every other argument shape (no file contents,
an empty array, or a truthy analysis document) the run returns the
generation pipeline's output — extraction, fetch handling, token-map
construction, substitution, composition and concatenation, as composed in
`generationOutput`. -/
theorem C5_two_phase_protocol :
    (∀ (apiKey : String) (args : SetupInstructionsArgs)
        (env env' : ExternalEnv) (files : List FileEntry),
      args.fileContents = some files → files ≠ [] →
      isFalsyOpt args.codebaseAnalysis = true →
      env.envApiKey = env'.envApiKey →
      env.analysisPrompt = env'.analysisPrompt →
      getSetupInstructionsRun apiKey args env =
        getSetupInstructionsRun apiKey args env') ∧
      (∀ (apiKey : String) (args : SetupInstructionsArgs)
          (env : ExternalEnv) (files : List FileEntry),
        args.fileContents = some files → files ≠ [] →
        isFalsyOpt args.codebaseAnalysis = true →
        authOk apiKey env = true →
        getSetupInstructionsRun apiKey args env =
          .ok (redirectText args.pricingComponents files
            env.analysisPrompt)) ∧
      (∀ (pc : List String) (files : List FileEntry) (prompt : String),
        containsSubstr (redirectText pc files prompt)
          "call getSetupInstructions again with:\n- \x60codebaseAnalysis\x60: The complete markdown document from your analysis"
          = true) ∧
      (∀ (apiKey : String) (args : SetupInstructionsArgs)
          (env : ExternalEnv),
        authOk apiKey env = true → redirectCond args = false →
        getSetupInstructionsRun apiKey args env =
          .ok (generationOutput args env)) := by
  refine ⟨?_, ?_, ?_, ?_⟩
  · intro apiKey args env env' files hf hne hfalsy henv hprompt
    unfold getSetupInstructionsRun
    dsimp only
    rw [henv]
    by_cases hauth : resolveBearer apiKey env'.envApiKey = "" ∨
        jsTrim (resolveBearer apiKey env'.envApiKey) = ""
    · rw [if_pos hauth, if_pos hauth]
    · rw [if_neg hauth, if_neg hauth, hf]
      dsimp only
      rw [if_pos ⟨List.length_pos.mpr hne, hfalsy⟩,
        if_pos ⟨List.length_pos.mpr hne, hfalsy⟩, hprompt]
  · intro apiKey args env files hf hne hfalsy hauth
    exact run_redirect apiKey args env files hf hne hfalsy hauth
  · intro pc files prompt
    unfold redirectText
    apply containsSubstr_append_left
    apply containsSubstr_append_left
    apply containsSubstr_append_left
    decide
  · intro apiKey args env hauth hrc
    exact run_generation apiKey args env hauth hrc

set_option maxRecDepth 100000 in
/-- Witness for C5: the redirect equation evaluated at one concrete
invocation. -/
theorem C5_two_phase_protocol_witness :
    getSetupInstructionsRun "key"
        { fileContents := some [{ path := "package.json", content := "x" }],
          codebaseAnalysis := none, projectStructure := none,
          pricingComponents := ["subscription"], stackDetails := none,
          additionalDetails := none } {} =
      .ok (redirectText ["subscription"]
        [{ path := "package.json", content := "x" }] "") :=
  C5_two_phase_protocol.2.1 "key"
    { fileContents := some [{ path := "package.json", content := "x" }],
      codebaseAnalysis := none, projectStructure := none,
      pricingComponents := ["subscription"], stackDetails := none,
      additionalDetails := none } {}
    [{ path := "package.json", content := "x" }]
    rfl (by decide) (by decide) (by decide)

set_option maxRecDepth 100000 in
/-- C6: pricing failures degrade to status text.  On a generation run, a
thrown pricing fetch or an absent pricing model still returns a
successful document — the customized instructions followed by a status
tail that carries the no-default-configuration message and contains no
YAML code fence; a found configuration whose serialization throws also
returns successfully, with a distinct fixed serialization-failure message;
the two messages differ.  In no such case is the run an error. -/
theorem C6_pricing_failures_degrade :
    (∀ (apiKey : String) (args : SetupInstructionsArgs)
        (env : ExternalEnv),
      authOk apiKey env = true → redirectCond args = false →
      (env.fetchOutcome = .error () ∨ env.fetchOutcome = .ok none) →
      getSetupInstructionsRun apiKey args env =
        .ok (customizedInstructionsOf args env none ++
          statusTail none none) ∧
      containsSubstr (statusTail none none)
        "No default pricing model found for your organization." = true ∧
      containsSubstr (statusTail none none) "\x60\x60\x60yaml" = false) ∧
      (∀ (apiKey : String) (args : SetupInstructionsArgs)
          (env : ExternalEnv) (pm : SetupPricingModelInput),
        authOk apiKey env = true → redirectCond args = false →
        env.fetchOutcome = .ok (some pm) → env.yamlOutcome = .error () →
        getSetupInstructionsRun apiKey args env =
          .ok (customizedInstructionsOf args env (some pm) ++
            statusTail (some pm) none) ∧
        containsSubstr (statusTail (some pm) none)
          "Failed to generate YAML from pricing model data." = true) ∧
      ("No default pricing model found for your organization. You can set up your pricing model in the Flowglad dashboard." ≠
        "Failed to generate YAML from pricing model data. Please check the console for errors.") := by
  refine ⟨?_, ?_, by decide⟩
  · intro apiKey args env hauth hrc hfetch
    refine ⟨?_, by decide, by decide⟩
    rw [run_generation apiKey args env hauth hrc]
    unfold generationOutput
    rcases hfetch with h | h <;> rw [h]
  · intro apiKey args env pm hauth hrc hfetch hyaml
    have hst : statusTail (some pm) none =
        statusTail (some (⟨[], [], []⟩ : SetupPricingModelInput)) none := rfl
    refine ⟨?_, by rw [hst]; decide⟩
    rw [run_generation apiKey args env hauth hrc]
    unfold generationOutput
    rw [hfetch]
    dsimp only
    rw [hyaml]

/-- Witness for C6: the degraded run evaluated at a concrete invocation
whose pricing fetch finds no default configuration. -/
theorem C6_pricing_failures_degrade_witness :
    getSetupInstructionsRun "key" {} { fetchOutcome := .ok none } =
      .ok (customizedInstructionsOf {} { fetchOutcome := .ok none } none ++
        statusTail none none) :=
  (C6_pricing_failures_degrade.1 "key" {} { fetchOutcome := .ok none }
    (by decide) (by decide) (Or.inr rfl)).1

/-- C10: an empty-string analysis document is treated exactly like an
absent one — `extractCodebaseInfo` returns the same fully-defaulted record
for `""` as for an absent document under every override record, and
`getSetupInstructions` with a non-empty `fileContents` array and
`codebaseAnalysis = ""` takes the two-phase redirect path (the empty
string is JavaScript-falsy). -/
theorem C10_empty_equals_absent :
    (∀ ov : FilePathOverrides,
      extractCodebaseInfo (some "") ov = extractCodebaseInfo none ov) ∧
      (∀ (apiKey : String) (args : SetupInstructionsArgs)
          (env : ExternalEnv) (files : List FileEntry),
        args.fileContents = some files → files ≠ [] →
        args.codebaseAnalysis = some "" →
        authOk apiKey env = true →
        getSetupInstructionsRun apiKey args env =
          .ok (redirectText args.pricingComponents files
            env.analysisPrompt)) := by
  constructor
  · intro ov
    rfl
  · intro apiKey args env files hf hne hca hauth
    exact run_redirect apiKey args env files hf hne
      (by rw [hca]; rfl) hauth

/-- Witness for C10: the redirect equation with an empty-string analysis
document at one concrete invocation. -/
theorem C10_empty_equals_absent_witness :
    getSetupInstructionsRun "key"
        { fileContents := some [{ path := "a", content := "b" }],
          codebaseAnalysis := some "" } {} =
      .ok (redirectText [] [{ path := "a", content := "b" }] "") :=
  C10_empty_equals_absent.2 "key"
    { fileContents := some [{ path := "a", content := "b" }],
      codebaseAnalysis := some "" } {}
    [{ path := "a", content := "b" }] rfl (by decide) rfl (by decide)
